import Mathlib

/-! kubeturbo: action lock store and service probe

A shallow embedding of

* `pkg/action/action_lock_store.go` (lock key derivation, `getLock`, `getLockHelper`),
* `pkg/probe/service_probe.go` (`findBackendPodPerService`, `ParseService`),

followed by the properties established about them.

Conventions.  A Go pointer that may be nil is an `Option`.  A Go result pair
`(value, error)` is kept as a pair, so that "both" and "neither" are expressible.
`time.Duration` values are natural numbers of nanoseconds.  Calls to `glog` have no
effect on any value computed here and are left out.
-/

namespace Kubeturbo

/-! ## Data model -/

/-- Go `error` values met by the lock store.  `invalidKey` and `lockTimeout` are the two
errors of package `util` named by the specification; `other` is any further error, such as
one reported by the owner lookup. -/
inductive Error where
  | invalidKey : Error
  | lockTimeout (key : String) (waited : Nat) : Error
  | other (msg : String) : Error
  deriving DecidableEq, Repr

/-- The fields of `api.Pod` read by the lock store: `pod.Namespace`, `pod.Name`, `pod.UID`. -/
structure Pod where
  Namespace : String
  Name : String
  UID : String
  deriving DecidableEq, Repr

/-- The part of `proto.EntityDTO` read here: the optional (proto2) field `Id`. -/
structure EntityDTO where
  Id : Option String
  deriving DecidableEq, Repr

/-- The part of `proto.ActionItemDTO` read here: `Uuid` and the pointer `TargetSE`. -/
structure ActionItemDTO where
  Uuid : Option String
  TargetSE : Option EntityDTO
  deriving DecidableEq, Repr

/-- Generated getter `(*ActionItemDTO).GetUuid`: nil-safe, the empty string when unset. -/
def ActionItemDTO.GetUuid (m : Option ActionItemDTO) : String :=
  match m with
  | some ai => ai.Uuid.getD ""
  | none => ""

/-- Generated getter `(*ActionItemDTO).GetTargetSE`: nil-safe, nil when unset. -/
def ActionItemDTO.GetTargetSE (m : Option ActionItemDTO) : Option EntityDTO :=
  match m with
  | some ai => ai.TargetSE
  | none => none

/-- Generated getter `(*EntityDTO).GetId`: nil-safe, the empty string when unset. -/
def EntityDTO.GetId (m : Option EntityDTO) : String :=
  match m with
  | some e => e.Id.getD ""
  | none => ""

/-- The value of `time.Second`, in nanoseconds. -/
def Second : Nat := 1000000000

/-- Source constant `defaultWaitLockTimeOut = time.Second * 300`. -/
def defaultWaitLockTimeOut : Nat := Second * 300

/-- Source constant `defaultWaitLockSleep = time.Second * 10`. -/
def defaultWaitLockSleep : Nat := Second * 10

/-- A pointer `*util.ExpirationMap`: the address of a lock table. -/
abbrev MapRef := Nat

/-- Modelled from the spec: `util.ExpirationMap` is not part of the source tree.  Section 3 and
4.1 describe it as a registry of entries `key, expireAt` with one fixed time-to-live, where the
presence of a live entry for a key is the lock. -/
structure ExpirationMap where
  ttl : Nat
  entries : List (String × Nat)
  deriving DecidableEq, Repr

/-- The mutable state shared by all callers: the clock and the lock tables by address. -/
structure World where
  now : Nat
  maps : MapRef → ExpirationMap

/-- Modelled from the spec: `util.LockHelper` is not part of the source tree.  Section 3 gives
it a key, a borrowed reference to the shared map and an observable lock-held flag. -/
structure LockHelper where
  key : String
  emap : MapRef
  acquired : Bool
  deriving DecidableEq, Repr

/-- Source struct `ActionLockStore`: the lock map pointer and the injected `podFunc`. -/
structure ActionLockStore where
  lockMap : MapRef
  podFunc : Option ActionItemDTO → Option Pod

/-- Source constructor `newActionLockStore`. -/
def newActionLockStore (lockMap : MapRef) (podFunc : Option ActionItemDTO → Option Pod) :
    ActionLockStore :=
  ⟨lockMap, podFunc⟩

/-- The functions of package `util` called by the lock store.  The package is outside the
source tree, so they are parameters of the embedding.

* `GetPodParentInfo pod` is the Go triple `(parentKind, parentName, err)`.
* `NewLockHelper key emap` gives a helper or an error, never both and never neither; it may
  read the world and does not change it.
* `Trylock helper timeout interval` gives the error (nil when the lock was taken), the helper
  after the call (the receiver is a pointer and may be updated) and the world after the call. -/
structure Util where
  GetPodParentInfo : Pod → String × String × Option Error
  NewLockHelper : String → MapRef → World → Except Error LockHelper
  Trylock : LockHelper → Nat → Nat → World → Option Error × LockHelper × World

/-- A call made into package `util` by the lock store, with its arguments. -/
inductive Call where
  | NewLockHelper (key : String) (emap : MapRef) : Call
  | Trylock (helper : LockHelper) (timeout interval : Nat) : Call
  deriving DecidableEq, Repr

/-- What `getLock` and `getLockHelper` leave behind: the Go result pair
`(*util.LockHelper, error)`, the world after the call, and the calls made into `util`, in
order. -/
structure LockResult where
  lock : Option LockHelper
  err : Option Error
  world : World
  calls : List Call

/-! ## Lock key derivation -/

/-- Source function `getPodLockKey`.  `fmt.Sprintf("%v-%v/%v", a, b, c)` on three strings is
`a ++ "-" ++ b ++ "/" ++ c`; `string(pod.UID)` is the UID. -/
def getPodLockKey (U : Util) (pod : Pod) : String × Option Error :=
  match U.GetPodParentInfo pod with
  | (parentKind, parentName, err) =>
    if err.isSome then ("", err)
    else if parentKind ≠ "" then
      (parentKind ++ "-" ++ pod.Namespace ++ "/" ++ parentName, none)
    else (pod.UID, none)

/-- Source method `ActionLockStore.getLockKey`. -/
def ActionLockStore.getLockKey (U : Util) (a : ActionLockStore)
    (actionItem : Option ActionItemDTO) : String × Option Error :=
  match a.podFunc actionItem with
  | none => (EntityDTO.GetId (ActionItemDTO.GetTargetSE actionItem), none)
  | some pod => getPodLockKey U pod

/-! ## Taking the lock -/

/-- Source method `ActionLockStore.getLockHelper`. -/
def ActionLockStore.getLockHelper (U : Util) (a : ActionLockStore) (key : String)
    (w : World) : LockResult :=
  match U.NewLockHelper key a.lockMap w with
  | .error err => ⟨none, some err, w, [Call.NewLockHelper key a.lockMap]⟩
  | .ok helper =>
    match U.Trylock helper defaultWaitLockTimeOut defaultWaitLockSleep w with
    | (some err, _, w1) =>
      ⟨none, some err, w1,
        [Call.NewLockHelper key a.lockMap,
         Call.Trylock helper defaultWaitLockTimeOut defaultWaitLockSleep]⟩
    | (none, helper1, w1) =>
      ⟨some helper1, none, w1,
        [Call.NewLockHelper key a.lockMap,
         Call.Trylock helper defaultWaitLockTimeOut defaultWaitLockSleep]⟩

/-- Source method `ActionLockStore.getLock`. -/
def ActionLockStore.getLock (U : Util) (a : ActionLockStore)
    (actionItem : Option ActionItemDTO) (w : World) : LockResult :=
  match a.getLockKey U actionItem with
  | (_, some err) => ⟨none, some err, w, []⟩
  | (key, none) =>
    let r := a.getLockHelper U key w
    match r.err with
    | some err => ⟨none, some err, r.world, r.calls⟩
    | none => ⟨r.lock, none, r.world, r.calls⟩

/-! ## The lock table and the lock helper, from the specification -/

/-- Modelled from the spec: whether `key` has a live entry at time `now` (package `util` is not
in the source tree).  An entry becomes eligible for reclamation at `expireAt`, so it is live
strictly before that instant. -/
def ExpirationMap.live (m : ExpirationMap) (key : String) (now : Nat) : Bool :=
  m.entries.any (fun e => e.1 == key && decide (now < e.2))

/-- Modelled from the spec: `ExpirationMap.Acquire` (package `util` is not in the source tree).
It inserts an entry for `key` with `expireAt = now + ttl` if and only if no live entry exists
for `key`; an expired entry is reclaimed before the new one is inserted; it never blocks. -/
def ExpirationMap.Acquire (m : ExpirationMap) (key : String) (now : Nat) :
    Bool × ExpirationMap :=
  if m.live key now then (false, m)
  else (true, ⟨m.ttl, (key, now + m.ttl) :: m.entries.filter (fun e => e.1 != key)⟩)

/-- Modelled from the spec: `ExpirationMap.Release` (package `util` is not in the source tree).
It removes the entry for `key` unconditionally; releasing an absent key is a no-op. -/
def ExpirationMap.Release (m : ExpirationMap) (key : String) : ExpirationMap :=
  ⟨m.ttl, m.entries.filter (fun e => e.1 != key)⟩

/-- Modelled from the spec: `ExpirationMap.Renew` (package `util` is not in the source tree).
It extends `expireAt` of the entry for `key` to `now + ttl`. -/
def ExpirationMap.Renew (m : ExpirationMap) (key : String) (now : Nat) : ExpirationMap :=
  ⟨m.ttl, m.entries.map (fun e => if e.1 == key then (e.1, now + m.ttl) else e)⟩

/-- Modelled from the spec: one `Acquire` on the lock table at address `emap`, at the current
time; the table itself is not in the source tree. -/
def World.Acquire (w : World) (emap : MapRef) (key : String) : Bool × World :=
  (((w.maps emap).Acquire key w.now).1,
    ⟨w.now, Function.update w.maps emap ((w.maps emap).Acquire key w.now).2⟩)

/-- Modelled from the spec: one `Release` on the lock table at address `emap`; the table
itself is not in the source tree. -/
def World.Release (w : World) (emap : MapRef) (key : String) : World :=
  ⟨w.now, Function.update w.maps emap ((w.maps emap).Release key)⟩

/-- Modelled from the spec: one `Renew` on the lock table at address `emap`, at the current
time; the table itself is not in the source tree. -/
def World.Renew (w : World) (emap : MapRef) (key : String) : World :=
  ⟨w.now, Function.update w.maps emap ((w.maps emap).Renew key w.now)⟩

/-- Modelled from the spec: the clock advances by `d`, a caller being suspended for that long
(section 5: the polling loop sleeps between attempts). -/
def World.sleep (w : World) (d : Nat) : World :=
  ⟨w.now + d, w.maps⟩

/-- Modelled from the spec: `util.NewLockHelper` (not in the source tree).  It fails with
`InvalidKey` if the key is empty; otherwise it returns a helper bound to that key and map and
not yet holding the lock. -/
def specNewLockHelper (key : String) (emap : MapRef) (_w : World) : Except Error LockHelper :=
  if key = "" then .error Error.invalidKey else .ok ⟨key, emap, false⟩

/-- Modelled from the spec: the polling loop of `LockHelper.TryLock` (not in the source tree).
It calls `Acquire` until it succeeds or the elapsed time reaches the timeout, suspending the
caller for the poll interval between attempts.  The clock of the embedding advances only by
these suspensions.  `fuel` bounds the number of attempts; `elapsed` is the time waited so
far.  With timeout 30 and interval 10 an always-held key is polled three times and the loop
ends 30 time units after it began, as in the timeout scenario of section 8. -/
def pollLoop (emap : MapRef) (key : String) (timeout interval : Nat) :
    Nat → Nat → World → Bool × World
  | 0, _, w => (false, w)
  | fuel + 1, elapsed, w =>
    match w.Acquire emap key with
    | (true, w1) => (true, w1)
    | (false, w1) =>
      if timeout ≤ elapsed + interval then (false, w1.sleep interval)
      else pollLoop emap key timeout interval fuel (elapsed + interval) (w1.sleep interval)

/-- Modelled from the spec: the attempts that suffice for `pollLoop` to reach its timeout
(`TryLock` is not in the source tree).  A zero interval gives one attempt: the clock of the
embedding would not advance between two of them. -/
def pollBudget (timeout interval : Nat) : Nat :=
  timeout / interval + 1

/-- Modelled from the spec: `LockHelper.TryLock` (not in the source tree).  On success the
helper is marked as holding the lock and no error is returned; on timeout the result is
`LockTimeoutError` with the key and the timeout waited, and the helper is left not holding. -/
def specTrylock (h : LockHelper) (timeout interval : Nat) (w : World) :
    Option Error × LockHelper × World :=
  match pollLoop h.emap h.key timeout interval (pollBudget timeout interval) 0 w with
  | (true, w1) => (none, ⟨h.key, h.emap, true⟩, w1)
  | (false, w1) => (some (Error.lockTimeout h.key timeout), h, w1)

/-- Modelled from the spec: `LockHelper.Release` (not in the source tree).  If the helper is
holding the lock it releases the key and clears the flag; otherwise it is a no-op. -/
def LockHelper.Release (h : LockHelper) (w : World) : LockHelper × World :=
  if h.acquired then (⟨h.key, h.emap, false⟩, w.Release h.emap h.key) else (h, w)

/-- Modelled from the spec: package `util`, which is not in the source tree, as sections 4.1
and 4.2 describe it, around a given owner lookup. -/
def specUtil (parentInfo : Pod → String × String × Option Error) : Util :=
  ⟨parentInfo, specNewLockHelper, specTrylock⟩

/-- Modelled from the spec: an atomic step taken on the shared state by some caller, namely
one `Acquire` attempt (one poll of some `TryLock`), a `Release`, a `Renew`, or time passing.
Section 4.1 makes every operation of the map atomic, so that concurrent callers amount to an
interleaving of such steps. -/
inductive Op where
  | acquire (emap : MapRef) (key : String) : Op
  | release (emap : MapRef) (key : String) : Op
  | renew (emap : MapRef) (key : String) : Op
  | tick (d : Nat) : Op
  deriving DecidableEq, Repr

/-- Modelled from the spec: the effect of one atomic step; the flag says whether an `Acquire`
was granted. -/
def World.step (w : World) : Op → Bool × World
  | .acquire emap key => w.Acquire emap key
  | .release emap key => (false, w.Release emap key)
  | .renew emap key => (false, w.Renew emap key)
  | .tick d => (false, w.sleep d)

/-- Modelled from the spec: the world after an interleaving of atomic steps, taken in
order. -/
def World.run (w : World) : List Op → World
  | [] => w
  | op :: ops => World.run (w.step op).2 ops

/-- A world at time `now` in which every lock table is empty and has the given TTL. -/
def World.fresh (now ttl : Nat) : World :=
  ⟨now, fun _ => ⟨ttl, []⟩⟩

/-! ## Go maps -/

/-- A Go `map[K]V` as an association list holding each key at most once. -/
abbrev GoMap (α β : Type) := List (α × β)

/-- The comma-ok lookup `v, ok := m[k]`: `none` when the key is absent. -/
def mapGet {α β : Type} [DecidableEq α] : GoMap α β → α → Option β
  | [], _ => none
  | (k1, v) :: rest, k => if k1 = k then some v else mapGet rest k

/-- The assignment `m[k] = v`: the value of a present key is replaced, an absent key is added. -/
def mapSet {α β : Type} [DecidableEq α] : GoMap α β → α → β → GoMap α β
  | [], k, v => [(k, v)]
  | (k1, v1) :: rest, k, v => if k1 = k then (k, v) :: rest else (k1, v1) :: mapSet rest k v

/-! ## Service probe -/

/-- The fields of `api.ObjectReference` read by the service probe. -/
structure ObjectReference where
  Namespace : String
  Name : String
  deriving DecidableEq, Repr

/-- The field of `api.EndpointAddress` read by the service probe: the pointer `TargetRef`. -/
structure EndpointAddress where
  TargetRef : Option ObjectReference
  deriving DecidableEq, Repr

/-- The field of `api.EndpointSubset` read by the service probe. -/
structure EndpointSubset where
  Addresses : List EndpointAddress
  deriving DecidableEq, Repr

/-- The fields of `api.Endpoints` read by the service probe. -/
structure Endpoints where
  Namespace : String
  Name : String
  Subsets : List EndpointSubset
  deriving DecidableEq, Repr

/-- The fields of `api.Service` read by the service probe. -/
structure Service where
  Namespace : String
  Name : String
  deriving DecidableEq, Repr

/-- The index expression `endpointMap[key]` on a `map[string]*api.Endpoints`: nil when the key
is absent, and the stored pointer (which may itself be nil) otherwise. -/
def endpointAt (endpointMap : GoMap String (Option Endpoints)) (key : String) :
    Option Endpoints :=
  (mapGet endpointMap key).join

/-- The body of the inner loop of `findBackendPodPerService` for one address. -/
def addBackendPod (serviceNameWithNamespace : String)
    (serviceEndpointMap : GoMap String (List String)) (address : EndpointAddress) :
    GoMap String (List String) :=
  match address.TargetRef with
  | none => serviceEndpointMap
  | some target =>
    let podNameWithNamespace := target.Namespace ++ "/" ++ target.Name
    let podIDList : List String :=
      match mapGet serviceEndpointMap serviceNameWithNamespace with
      | some pList => pList
      | none => []
    mapSet serviceEndpointMap serviceNameWithNamespace (podIDList ++ [podNameWithNamespace])

/-- Source method `ServiceProbe.findBackendPodPerService`.  The result is `none` for the nil
map returned when the service has no endpoints object. -/
def findBackendPodPerService (service : Service)
    (endpointMap : GoMap String (Option Endpoints)) : Option (GoMap String (List String)) :=
  let serviceNameWithNamespace := service.Namespace ++ "/" ++ service.Name
  match endpointAt endpointMap serviceNameWithNamespace with
  | none => none
  | some serviceEndpoint =>
    some (serviceEndpoint.Subsets.foldl
      (fun m endpointSubset =>
        endpointSubset.Addresses.foldl (addBackendPod serviceNameWithNamespace) m)
      [])

/-- The pod identifiers of the addresses of an endpoints object that carry a `TargetRef`, in
subset order and then address order. -/
def backendPods (ep : Endpoints) : List String :=
  (ep.Subsets.map (fun s =>
    s.Addresses.filterMap (fun a =>
      a.TargetRef.map (fun t => t.Namespace ++ "/" ++ t.Name)))).flatten

/-! ## Sample inputs -/

/-- A sample owner lookup: the pod named `bare` has no controller, the lookup of the pod
named `lost` fails, and every other pod belongs to the replica set `web`. -/
def sampleParentInfo (pod : Pod) : String × String × Option Error :=
  if pod.Name = "bare" then ("", "", none)
  else if pod.Name = "lost" then ("", "", some (Error.other "owner lookup failed"))
  else ("ReplicaSet", "web", none)

/-- A sample `podFunc`: the action item's UUID names the pod it targets, in namespace `ns1`;
an action item without UUID targets no pod. -/
def samplePodFunc (ai : Option ActionItemDTO) : Option Pod :=
  match ai with
  | some ⟨some uuid, _⟩ => some ⟨"ns1", uuid, "pod-uid-123"⟩
  | _ => none

/-- A sample store on the lock table at address `0`. -/
def sampleStore : ActionLockStore :=
  newActionLockStore 0 samplePodFunc

/-- A sample action item on a non-pod entity with id `vm-77`. -/
def sampleVmAction : Option ActionItemDTO :=
  some ⟨none, some ⟨some "vm-77"⟩⟩

/-! ## Invariants and auxiliary definitions of the proofs -/

/-- The holder's entry: the clock has not gone back before `t0`, the table at `emap` still has
time-to-live `ttl0`, and it holds an entry for `key` that expires no earlier than
`t0 + ttl0`. -/
def HeldSince (emap : MapRef) (key : String) (t0 ttl0 : Nat) (w : World) : Prop :=
  t0 ≤ w.now ∧ (w.maps emap).ttl = ttl0
    ∧ ∃ expireAt, (key, expireAt) ∈ (w.maps emap).entries ∧ t0 + ttl0 ≤ expireAt

/-- Whether an atomic step is one poll of a `TryLock` on `key` at `emap`: an `Acquire` attempt
for that key on that table, or time passing. -/
def Op.isPollOf (emap : MapRef) (key : String) : Op → Bool
  | .acquire emap2 key2 => decide (emap2 = emap) && decide (key2 = key)
  | .tick _ => true
  | _ => false

/-- The map built by `findBackendPodPerService` once the pods in `pods` have been met: empty
before the first pod, and the single entry of the service afterwards. -/
def singleEntry (serviceID : String) (pods : List String) : GoMap String (List String) :=
  if pods = [] then [] else [(serviceID, pods)]

/-- A second sample owner lookup, with a dash in a parent kind: the pod named `x` belongs to
`n` of kind `a-b`, every other pod to `n` of kind `a`. -/
def dashedParentInfo (pod : Pod) : String × String × Option Error :=
  if pod.Name = "x" then ("a-b", "n", none) else ("a", "n", none)

/-- A third sample owner lookup, with a slash in a parent name: the pod named `x` belongs to
`c` of kind `K`, every other pod to `b/c` of kind `K`. -/
def slashedParentInfo (pod : Pod) : String × String × Option Error :=
  if pod.Name = "x" then ("K", "c", none) else ("K", "b/c", none)

/-! ## Parsing services into entity DTOs -/

/-- A `float64` of the source, held by its IEEE 754 bit pattern.  No arithmetic on these values
is embedded. -/
structure Float64 where
  bits : Nat
  deriving DecidableEq, Repr

/-- The entity types of `sdk.EntityDTO` used by the service probe. -/
inductive sdk.EntityType where
  | VIRTUAL_APPLICATION : sdk.EntityType
  | APPLICATION : sdk.EntityType
  deriving DecidableEq, Repr

/-- The commodity type of `sdk.CommodityDTO` used by the service probe. -/
inductive sdk.CommodityType where
  | TRANSACTION : sdk.CommodityType
  deriving DecidableEq, Repr

/-- The provider built by `sdk.CreateProvider`: its entity type and id. -/
structure sdk.ProviderDTO where
  ProviderType : sdk.EntityType
  Id : String
  deriving DecidableEq, Repr

/-- The commodity built by `sdk.NewCommodityDTOBuilder(t).Key(k).Used(u).Create()`. -/
structure sdk.CommodityDTO where
  CommodityType : sdk.CommodityType
  Key : String
  Used : Float64
  deriving DecidableEq, Repr

/-- The entity built by the `sdk.EntityDTOBuilder`: the type and id given to
`NewEntityDTOBuilder`, the display name, and the commodities bought, provider by provider. -/
structure sdk.EntityDTO where
  EntityType : sdk.EntityType
  Id : String
  DisplayName : String
  CommoditiesBought : List (sdk.ProviderDTO × List sdk.CommodityDTO)
  deriving DecidableEq, Repr

/-- The state of an `sdk.EntityDTOBuilder`: the entity under construction and the provider set
by the last `SetProvider`. -/
structure sdk.EntityDTOBuilder where
  entity : sdk.EntityDTO
  currentProvider : Option sdk.ProviderDTO
  deriving DecidableEq, Repr

/-- Library call `sdk.NewEntityDTOBuilder(entityType, id)`. -/
def sdk.NewEntityDTOBuilder (entityType : sdk.EntityType) (id : String) :
    sdk.EntityDTOBuilder :=
  ⟨⟨entityType, id, "", []⟩, none⟩

/-- Library call `builder.DisplayName(name)`. -/
def sdk.EntityDTOBuilder.DisplayName (b : sdk.EntityDTOBuilder) (name : String) :
    sdk.EntityDTOBuilder :=
  ⟨⟨b.entity.EntityType, b.entity.Id, name, b.entity.CommoditiesBought⟩, b.currentProvider⟩

/-- Library call `builder.SetProvider(provider)`. -/
def sdk.EntityDTOBuilder.SetProvider (b : sdk.EntityDTOBuilder) (provider : sdk.ProviderDTO) :
    sdk.EntityDTOBuilder :=
  ⟨b.entity, some provider⟩

/-- Library call `builder.BuysCommodities(commodities)`: the commodities are recorded as bought
from the current provider; without a current provider nothing is recorded. -/
def sdk.EntityDTOBuilder.BuysCommodities (b : sdk.EntityDTOBuilder)
    (commodities : List sdk.CommodityDTO) : sdk.EntityDTOBuilder :=
  match b.currentProvider with
  | none => b
  | some provider =>
    ⟨⟨b.entity.EntityType, b.entity.Id, b.entity.DisplayName,
        b.entity.CommoditiesBought ++ [(provider, commodities)]⟩, b.currentProvider⟩

/-- Library call `builder.Create()`. -/
def sdk.EntityDTOBuilder.Create (b : sdk.EntityDTOBuilder) : sdk.EntityDTO :=
  b.entity

/-- What the service probe reads from its package besides its arguments: the package variable
`ClusterID`, the constant `appPrefix`, and, for each pod id, the `transactionBought` of
`getServiceResourceStat(podTransactionCountMap, podID)`, which depends on the package map of
transaction counts and on the testing flag file read by `helper.LoadTestingFlag`.  The
variable, the constant, the map and the flag reader are declared outside the source tree, so
these three are parameters of the embedding. -/
structure ProbeEnv where
  ClusterID : String
  appPrefix : String
  transactionBought : String → Float64

/-- Source method `ServiceProbe.getCommoditiesBought`.  The keys of the Go map are the pointers
returned by `sdk.CreateProvider`, one fresh pointer per pod id, so that every pod id adds an
entry; the entries are kept in the order of the pod ids. -/
def getCommoditiesBought (env : ProbeEnv) (podIDList : List String) :
    List (sdk.ProviderDTO × List sdk.CommodityDTO) :=
  podIDList.foldl
    (fun commoditiesBoughtMap podID =>
      let appName := podID
      let appID := env.appPrefix ++ appName
      let appProvider : sdk.ProviderDTO := ⟨sdk.EntityType.APPLICATION, appID⟩
      let transactionCommBought : sdk.CommodityDTO :=
        ⟨sdk.CommodityType.TRANSACTION, appName, env.transactionBought podID⟩
      let commoditiesBoughtFromApp := [transactionCommBought]
      commoditiesBoughtMap ++ [(appProvider, commoditiesBoughtFromApp)])
    []

/-- Source method `ServiceProbe.buildEntityDTO`.  Go leaves the order in which `range` visits
the providers open; the order of the list stands for it. -/
def buildEntityDTO (env : ProbeEnv) (serviceName : String)
    (commoditiesBoughtMap : List (sdk.ProviderDTO × List sdk.CommodityDTO)) : sdk.EntityDTO :=
  let id := "vApp-" ++ serviceName ++ "-" ++ env.ClusterID
  let dispName := id
  let entityDTOBuilder :=
    (sdk.NewEntityDTOBuilder sdk.EntityType.VIRTUAL_APPLICATION id).DisplayName dispName
  (commoditiesBoughtMap.foldl
    (fun b e => (b.SetProvider e.1).BuysCommodities e.2) entityDTOBuilder).Create

/-- The first loop of `ParseService`: the endpoint map, keyed by `namespace/name` of each
endpoints object, a later object replacing an earlier one under the same key. -/
def buildEndpointMap (endpointList : List Endpoints) : GoMap String (Option Endpoints) :=
  endpointList.foldl
    (fun endpointMap endpoint =>
      mapSet endpointMap (endpoint.Namespace ++ "/" ++ endpoint.Name) (some endpoint))
    []

/-- The entries visited by `range` over a map that may be nil: none for the nil map. -/
def rangeOf {α β : Type} (m : Option (GoMap α β)) : List (α × β) :=
  match m with
  | none => []
  | some entries => entries

/-- The body of the second loop of `ParseService` for one service. -/
def parseOneService (env : ProbeEnv) (endpointMap : GoMap String (Option Endpoints))
    (result : List sdk.EntityDTO) (service : Service) : List sdk.EntityDTO :=
  let serviceEndpointMap := findBackendPodPerService service endpointMap
  (rangeOf serviceEndpointMap).foldl
    (fun result e =>
      if e.2.length < 1 then result
      else
        let commoditiesBoughtMap := getCommoditiesBought env e.2
        let entityDto := buildEntityDTO env e.1 commoditiesBoughtMap
        result ++ [entityDto])
    result

/-- Source method `ServiceProbe.ParseService`: the entity DTOs and the error, which is always
nil. -/
def ParseService (env : ProbeEnv) (serviceList : List Service) (endpointList : List Endpoints) :
    List sdk.EntityDTO × Option Error :=
  let endpointMap := buildEndpointMap endpointList
  (serviceList.foldl (parseOneService env endpointMap) [], none)

/-- The last endpoints object of the list stored under the key `namespace/name`. -/
def lastEndpointsAt (endpointList : List Endpoints) (key : String) : Option Endpoints :=
  endpointList.reverse.find? (fun ep => decide (ep.Namespace ++ "/" ++ ep.Name = key))

/-- The last endpoints object of the list with the namespace and the name of the service. -/
def lastEndpointsOf (endpointList : List Endpoints) (service : Service) : Option Endpoints :=
  endpointList.reverse.find?
    (fun ep => decide (ep.Namespace = service.Namespace ∧ ep.Name = service.Name))

/-- The entity DTO of a service served by the endpoints object `ep`, if `ep` has an address
with a `TargetRef`. -/
def serviceDTO (env : ProbeEnv) (service : Service) (ep : Option Endpoints) :
    Option sdk.EntityDTO :=
  match ep with
  | none => none
  | some ep =>
    if backendPods ep = [] then none
    else some (buildEntityDTO env (service.Namespace ++ "/" ++ service.Name)
      (getCommoditiesBought env (backendPods ep)))

/-- A sample environment of the service probe. -/
def sampleProbeEnv : ProbeEnv :=
  ⟨"cluster-1", "App-", fun _ => ⟨0⟩⟩

/-- Sample endpoints: the object `b/c` of namespace `a` has one address with a `TargetRef`;
the later object `c` of namespace `a/b` has no address. -/
def collidingEndpoints : List Endpoints :=
  [⟨"a", "b/c", [⟨[⟨some ⟨"a", "p"⟩⟩]⟩]⟩, ⟨"a/b", "c", []⟩]

/-! # Properties -/

/-- C1: when the owner lookup succeeds with a non-empty parent kind, `getPodLockKey` returns no
error and the key `parentKind-namespace/parentName`; any other pod of the same controller in
the same namespace, whatever its name and UID, gets the same key. -/
theorem getPodLockKey_controller (U : Util) (pod : Pod) (parentKind parentName : String)
    (hinfo : U.GetPodParentInfo pod = (parentKind, parentName, none))
    (hkind : parentKind ≠ "") :
    getPodLockKey U pod = (parentKind ++ "-" ++ pod.Namespace ++ "/" ++ parentName, none)
      ∧ ∀ pod2 : Pod, U.GetPodParentInfo pod2 = (parentKind, parentName, none) →
          pod2.Namespace = pod.Namespace → getPodLockKey U pod2 = getPodLockKey U pod := by
  have key : ∀ p : Pod, U.GetPodParentInfo p = (parentKind, parentName, none) →
      getPodLockKey U p = (parentKind ++ "-" ++ p.Namespace ++ "/" ++ parentName, none) := by
    intro p hp
    simp [getPodLockKey, hp, hkind]
  refine ⟨key pod hinfo, ?_⟩
  intro pod2 h2 hns
  rw [key pod2 h2, key pod hinfo, hns]

/-- Witness of C1: two pods of replica set `web` in namespace `ns1` both get the key
`ReplicaSet-ns1/web`. -/
theorem getPodLockKey_controller_witness :
    getPodLockKey (specUtil sampleParentInfo) ⟨"ns1", "web-1", "uid-1"⟩
        = ("ReplicaSet-ns1/web", none)
      ∧ getPodLockKey (specUtil sampleParentInfo) ⟨"ns1", "web-2", "uid-2"⟩
        = getPodLockKey (specUtil sampleParentInfo) ⟨"ns1", "web-1", "uid-1"⟩ :=
  ⟨(getPodLockKey_controller (specUtil sampleParentInfo) ⟨"ns1", "web-1", "uid-1"⟩
      "ReplicaSet" "web" rfl (by decide)).1,
   (getPodLockKey_controller (specUtil sampleParentInfo) ⟨"ns1", "web-1", "uid-1"⟩
      "ReplicaSet" "web" rfl (by decide)).2 ⟨"ns1", "web-2", "uid-2"⟩ rfl rfl⟩

/-- C2: when the owner lookup succeeds with an empty parent kind (a bare pod), `getPodLockKey`
returns no error and the key is the pod's UID, whatever the parent name, the namespace and the
pod name are. -/
theorem getPodLockKey_bare (U : Util) (pod : Pod) (parentName : String)
    (hinfo : U.GetPodParentInfo pod = ("", parentName, none)) :
    getPodLockKey U pod = (pod.UID, none) := by
  simp [getPodLockKey, hinfo]

/-- Witness of C2: the bare pod with UID `pod-uid-123` gets the key `pod-uid-123`. -/
theorem getPodLockKey_bare_witness :
    getPodLockKey (specUtil sampleParentInfo) ⟨"ns1", "bare", "pod-uid-123"⟩
      = ("pod-uid-123", none) :=
  getPodLockKey_bare (specUtil sampleParentInfo) ⟨"ns1", "bare", "pod-uid-123"⟩ "" rfl

/-- C3: when `podFunc` returns nil, `getLockKey` returns no error and the id of the target SE,
the same for every owner lookup; when `podFunc` returns a pod, `getLockKey` returns what
`getPodLockKey` returns for that pod, the same for every action item mapped to that pod. -/
theorem getLockKey_cases (U : Util) (a : ActionLockStore) (actionItem : Option ActionItemDTO) :
    (a.podFunc actionItem = none →
        a.getLockKey U actionItem
            = (EntityDTO.GetId (ActionItemDTO.GetTargetSE actionItem), none)
          ∧ (∀ U2 : Util, a.getLockKey U2 actionItem = a.getLockKey U actionItem)
          ∧ ∀ (item : ActionItemDTO) (se : EntityDTO) (id : String),
              actionItem = some item → item.TargetSE = some se → se.Id = some id →
              a.getLockKey U actionItem = (id, none))
      ∧ ∀ pod : Pod, a.podFunc actionItem = some pod →
          a.getLockKey U actionItem = getPodLockKey U pod
            ∧ ∀ other : Option ActionItemDTO, a.podFunc other = some pod →
                a.getLockKey U other = a.getLockKey U actionItem := by
  refine ⟨?_, ?_⟩
  · intro hnone
    refine ⟨by simp [ActionLockStore.getLockKey, hnone], ?_, ?_⟩
    · intro U2
      simp [ActionLockStore.getLockKey, hnone]
    · intro item se id hitem hse hid
      subst hitem
      simp [ActionLockStore.getLockKey, hnone, ActionItemDTO.GetTargetSE, EntityDTO.GetId,
        hse, hid]
  · intro pod hpod
    refine ⟨by simp [ActionLockStore.getLockKey, hpod], ?_⟩
    intro other hother
    simp [ActionLockStore.getLockKey, hpod, hother]

/-- Witness of C3: the non-pod action on `vm-77` gets the key `vm-77`, and an action on a pod
of replica set `web` gets that pod's key whatever its target SE is. -/
theorem getLockKey_cases_witness :
    sampleStore.getLockKey (specUtil sampleParentInfo) sampleVmAction = ("vm-77", none)
      ∧ sampleStore.getLockKey (specUtil sampleParentInfo)
          (some ⟨some "web-1", some ⟨some "vm-77"⟩⟩)
        = getPodLockKey (specUtil sampleParentInfo) ⟨"ns1", "web-1", "pod-uid-123"⟩ :=
  ⟨((getLockKey_cases (specUtil sampleParentInfo) sampleStore sampleVmAction).1 rfl).2.2
      ⟨none, some ⟨some "vm-77"⟩⟩ ⟨some "vm-77"⟩ "vm-77" rfl rfl rfl,
   ((getLockKey_cases (specUtil sampleParentInfo) sampleStore
      (some ⟨some "web-1", some ⟨some "vm-77"⟩⟩)).2 ⟨"ns1", "web-1", "pod-uid-123"⟩ rfl).1⟩

/-- A granted `Acquire` leaves an entry for the key in the lock table. -/
theorem World.Acquire_granted (w w1 : World) (emap : MapRef) (key : String)
    (h : w.Acquire emap key = (true, w1)) :
    w1.now = w.now ∧ (key, w.now + (w.maps emap).ttl) ∈ (w1.maps emap).entries := by
  unfold World.Acquire ExpirationMap.Acquire at h
  by_cases hl : (w.maps emap).live key w.now = true
  · simp [hl] at h
  · simp [hl] at h
    subst h
    simp

/-- A successful polling loop leaves an entry for the key in the lock table. -/
theorem pollLoop_granted (emap : MapRef) (key : String) (timeout interval : Nat) :
    ∀ (fuel elapsed : Nat) (w w1 : World),
      pollLoop emap key timeout interval fuel elapsed w = (true, w1) →
      ∃ expireAt, (key, expireAt) ∈ (w1.maps emap).entries := by
  intro fuel
  induction fuel with
  | zero => intro elapsed w w1 h; simp [pollLoop] at h
  | succ n ih =>
    intro elapsed w w1 h
    rw [pollLoop] at h
    rcases hacq : w.Acquire emap key with ⟨ok, w2⟩
    rw [hacq] at h
    cases ok with
    | true =>
      simp at h
      subst h
      exact ⟨_, (World.Acquire_granted w w2 emap key hacq).2⟩
    | false =>
      simp at h
      by_cases ht : timeout ≤ elapsed + interval
      · simp [ht] at h
      · simp [ht] at h
        exact ih _ _ _ h

/-- C4: when `podFunc` returns a pod whose owner lookup returns an error, `getLock` returns a
nil helper and that same error, makes no call into the lock helper (neither `NewLockHelper`
nor `Trylock`), and leaves the world, lock maps included, unchanged. -/
theorem getLock_owner_lookup_error (U : Util) (a : ActionLockStore)
    (actionItem : Option ActionItemDTO) (w : World) (pod : Pod)
    (parentKind parentName : String) (err : Error)
    (hpod : a.podFunc actionItem = some pod)
    (hinfo : U.GetPodParentInfo pod = (parentKind, parentName, some err)) :
    (a.getLock U actionItem w).lock = none
      ∧ (a.getLock U actionItem w).err = some err
      ∧ (a.getLock U actionItem w).calls = []
      ∧ (a.getLock U actionItem w).world = w := by
  have hkey : a.getLockKey U actionItem = ("", some err) := by
    simp [ActionLockStore.getLockKey, hpod, getPodLockKey, hinfo]
  simp [ActionLockStore.getLock, hkey]

/-- Witness of C4: the action on the pod `lost`, whose owner lookup fails, gets that error and
the fresh world is returned as it was. -/
theorem getLock_owner_lookup_error_witness :
    (sampleStore.getLock (specUtil sampleParentInfo) (some ⟨some "lost", none⟩)
        (World.fresh 0 Second)).lock = none
      ∧ (sampleStore.getLock (specUtil sampleParentInfo) (some ⟨some "lost", none⟩)
        (World.fresh 0 Second)).err = some (Error.other "owner lookup failed")
      ∧ (sampleStore.getLock (specUtil sampleParentInfo) (some ⟨some "lost", none⟩)
        (World.fresh 0 Second)).calls = []
      ∧ (sampleStore.getLock (specUtil sampleParentInfo) (some ⟨some "lost", none⟩)
        (World.fresh 0 Second)).world = World.fresh 0 Second :=
  getLock_owner_lookup_error (specUtil sampleParentInfo) sampleStore
    (some ⟨some "lost", none⟩) (World.fresh 0 Second) ⟨"ns1", "lost", "pod-uid-123"⟩ "" ""
    (Error.other "owner lookup failed") rfl rfl

/-- The result of `getLock` when `NewLockHelper` fails. -/
theorem getLock_eq_new_error (U : Util) (a : ActionLockStore)
    (actionItem : Option ActionItemDTO) (w : World) (key : String) (e : Error)
    (hkey : a.getLockKey U actionItem = (key, none))
    (hnew : U.NewLockHelper key a.lockMap w = .error e) :
    a.getLock U actionItem w = ⟨none, some e, w, [Call.NewLockHelper key a.lockMap]⟩ := by
  simp [ActionLockStore.getLock, hkey, ActionLockStore.getLockHelper, hnew]

/-- The result of `getLock` when `Trylock` fails. -/
theorem getLock_eq_try_error (U : Util) (a : ActionLockStore)
    (actionItem : Option ActionItemDTO) (w w1 : World) (key : String) (h h1 : LockHelper)
    (e : Error) (hkey : a.getLockKey U actionItem = (key, none))
    (hnew : U.NewLockHelper key a.lockMap w = .ok h)
    (htry : U.Trylock h defaultWaitLockTimeOut defaultWaitLockSleep w = (some e, h1, w1)) :
    a.getLock U actionItem w = ⟨none, some e, w1,
      [Call.NewLockHelper key a.lockMap,
       Call.Trylock h defaultWaitLockTimeOut defaultWaitLockSleep]⟩ := by
  simp [ActionLockStore.getLock, hkey, ActionLockStore.getLockHelper, hnew, htry]

/-- The result of `getLock` when both steps succeed. -/
theorem getLock_eq_try_ok (U : Util) (a : ActionLockStore)
    (actionItem : Option ActionItemDTO) (w w1 : World) (key : String) (h h1 : LockHelper)
    (hkey : a.getLockKey U actionItem = (key, none))
    (hnew : U.NewLockHelper key a.lockMap w = .ok h)
    (htry : U.Trylock h defaultWaitLockTimeOut defaultWaitLockSleep w = (none, h1, w1)) :
    a.getLock U actionItem w = ⟨some h1, none, w1,
      [Call.NewLockHelper key a.lockMap,
       Call.Trylock h defaultWaitLockTimeOut defaultWaitLockSleep]⟩ := by
  simp [ActionLockStore.getLock, hkey, ActionLockStore.getLockHelper, hnew, htry]

/-- The helper of the specification is built exactly for a non-empty key. -/
theorem specNewLockHelper_ok (key : String) (emap : MapRef) (w : World) (h : LockHelper)
    (hnew : specNewLockHelper key emap w = .ok h) : key ≠ "" ∧ h = ⟨key, emap, false⟩ := by
  unfold specNewLockHelper at hnew
  by_cases hk : key = ""
  · simp [hk] at hnew
  · simp [hk] at hnew
    exact ⟨hk, hnew.symm⟩

/-- A failed `TryLock` of the specification reports the lock timeout for the helper's key. -/
theorem specTrylock_error (h h1 : LockHelper) (timeout interval : Nat) (w w1 : World)
    (e : Error) (htry : specTrylock h timeout interval w = (some e, h1, w1)) :
    e = Error.lockTimeout h.key timeout := by
  unfold specTrylock at htry
  rcases hp : pollLoop h.emap h.key timeout interval (pollBudget timeout interval) 0 w
    with ⟨ok, w2⟩
  rw [hp] at htry
  cases ok with
  | true => simp at htry
  | false =>
    simp at htry
    exact htry.1.symm

/-- A successful `TryLock` of the specification marks the helper as holding and leaves an
entry for its key in its lock table. -/
theorem specTrylock_ok (h h1 : LockHelper) (timeout interval : Nat) (w w1 : World)
    (htry : specTrylock h timeout interval w = (none, h1, w1)) :
    h1 = ⟨h.key, h.emap, true⟩ ∧ ∃ expireAt, (h.key, expireAt) ∈ (w1.maps h.emap).entries := by
  unfold specTrylock at htry
  rcases hp : pollLoop h.emap h.key timeout interval (pollBudget timeout interval) 0 w
    with ⟨ok, w2⟩
  rw [hp] at htry
  cases ok with
  | false => simp at htry
  | true =>
    simp at htry
    obtain ⟨hh, hw⟩ := htry
    subst hh hw
    exact ⟨rfl, pollLoop_granted _ _ _ _ _ _ _ _ hp⟩

/-- C5: when key derivation succeeds with `key`, `getLock` returns either a helper and a nil
error, or a nil helper and an error.  An error of `NewLockHelper` is returned unchanged with a
nil helper; otherwise an error of `Trylock` is returned unchanged with a nil helper; otherwise
the helper is returned as `Trylock` left it.  A helper is returned exactly when both steps
succeed.  With the helper of the specification the returned helper is the one built for the
key, it is marked as holding the lock, the lock table holds an entry for the key, and a failed
`Trylock` gives the lock-timeout error for the key. -/
theorem getLock_result (U : Util) (a : ActionLockStore) (actionItem : Option ActionItemDTO)
    (w : World) (key : String) (hkey : a.getLockKey U actionItem = (key, none)) :
    (((∃ h, (a.getLock U actionItem w).lock = some h) ∧ (a.getLock U actionItem w).err = none)
        ∨ ((a.getLock U actionItem w).lock = none
            ∧ ∃ e, (a.getLock U actionItem w).err = some e))
      ∧ (∀ e, U.NewLockHelper key a.lockMap w = .error e →
          (a.getLock U actionItem w).lock = none ∧ (a.getLock U actionItem w).err = some e)
      ∧ (∀ h e h1 w1, U.NewLockHelper key a.lockMap w = .ok h →
          U.Trylock h defaultWaitLockTimeOut defaultWaitLockSleep w = (some e, h1, w1) →
          (a.getLock U actionItem w).lock = none ∧ (a.getLock U actionItem w).err = some e)
      ∧ (∀ h h1 w1, U.NewLockHelper key a.lockMap w = .ok h →
          U.Trylock h defaultWaitLockTimeOut defaultWaitLockSleep w = (none, h1, w1) →
          (a.getLock U actionItem w).lock = some h1 ∧ (a.getLock U actionItem w).err = none
            ∧ (a.getLock U actionItem w).world = w1)
      ∧ ((∃ h, (a.getLock U actionItem w).lock = some h) ↔
          ∃ h h1 w1, U.NewLockHelper key a.lockMap w = .ok h
            ∧ U.Trylock h defaultWaitLockTimeOut defaultWaitLockSleep w = (none, h1, w1))
      ∧ (U.NewLockHelper = specNewLockHelper → U.Trylock = specTrylock →
          (∀ h, (a.getLock U actionItem w).lock = some h →
              h = ⟨key, a.lockMap, true⟩
                ∧ ∃ expireAt, (key, expireAt)
                    ∈ (((a.getLock U actionItem w).world).maps a.lockMap).entries)
            ∧ (key ≠ "" → (a.getLock U actionItem w).lock = none →
                (a.getLock U actionItem w).err
                  = some (Error.lockTimeout key defaultWaitLockTimeOut))) := by
  rcases hnew : U.NewLockHelper key a.lockMap w with e | h
  · rw [getLock_eq_new_error U a actionItem w key e hkey hnew]
    refine ⟨Or.inr ⟨rfl, e, rfl⟩, ?_, ?_, ?_, ?_, ?_⟩
    · intro e2 he2
      cases he2
      exact ⟨rfl, rfl⟩
    · intro h e2 h1 w1 hh
      cases hh
    · intro h h1 w1 hh
      cases hh
    · constructor
      · rintro ⟨h, hh⟩
        cases hh
      · rintro ⟨h, h1, w1, hh, _⟩
        cases hh
    · intro hN _
      rw [hN] at hnew
      refine ⟨?_, ?_⟩
      · intro h hh
        cases hh
      · intro hk
        exfalso
        unfold specNewLockHelper at hnew
        simp [hk] at hnew
  · rcases htry : U.Trylock h defaultWaitLockTimeOut defaultWaitLockSleep w with ⟨oe, h1, w1⟩
    cases oe with
    | some e =>
      rw [getLock_eq_try_error U a actionItem w w1 key h h1 e hkey hnew htry]
      refine ⟨Or.inr ⟨rfl, e, rfl⟩, ?_, ?_, ?_, ?_, ?_⟩
      · intro e2 he2
        cases he2
      · intro h2 e2 h3 w3 hh ht
        cases hh
        rw [htry] at ht
        cases ht
        exact ⟨rfl, rfl⟩
      · intro h2 h3 w3 hh ht
        cases hh
        rw [htry] at ht
        cases ht
      · constructor
        · rintro ⟨h2, hh⟩
          cases hh
        · rintro ⟨h2, h3, w3, hh, ht⟩
          cases hh
          rw [htry] at ht
          cases ht
      · intro hN hT
        rw [hN] at hnew
        rw [hT] at htry
        refine ⟨?_, ?_⟩
        · intro h2 hh
          cases hh
        · intro _ _
          have hb := specNewLockHelper_ok key a.lockMap w h hnew
          have he := specTrylock_error h h1 _ _ w w1 e htry
          rw [he, hb.2]
    | none =>
      rw [getLock_eq_try_ok U a actionItem w w1 key h h1 hkey hnew htry]
      refine ⟨Or.inl ⟨⟨h1, rfl⟩, rfl⟩, ?_, ?_, ?_, ?_, ?_⟩
      · intro e2 he2
        cases he2
      · intro h2 e2 h3 w3 hh ht
        cases hh
        rw [htry] at ht
        cases ht
      · intro h2 h3 w3 hh ht
        cases hh
        rw [htry] at ht
        cases ht
        exact ⟨rfl, rfl, rfl⟩
      · constructor
        · intro _
          exact ⟨h, h1, w1, rfl, htry⟩
        · intro _
          exact ⟨h1, rfl⟩
      · intro hN hT
        rw [hN] at hnew
        rw [hT] at htry
        have hb := specNewLockHelper_ok key a.lockMap w h hnew
        have ho := specTrylock_ok h h1 _ _ w w1 htry
        rw [hb.2] at ho
        refine ⟨?_, ?_⟩
        · intro h2 hh
          cases hh
          exact ho
        · intro _ hh
          cases hh

/-- Witness of C5: on a fresh world the action on `vm-77` derives a key and gets a helper and
no error. -/
theorem getLock_result_witness :
    sampleStore.getLockKey (specUtil sampleParentInfo) sampleVmAction = ("vm-77", none)
      ∧ (((∃ h, (sampleStore.getLock (specUtil sampleParentInfo) sampleVmAction
              (World.fresh 0 Second)).lock = some h)
            ∧ (sampleStore.getLock (specUtil sampleParentInfo) sampleVmAction
              (World.fresh 0 Second)).err = none)
          ∨ ((sampleStore.getLock (specUtil sampleParentInfo) sampleVmAction
              (World.fresh 0 Second)).lock = none
            ∧ ∃ e, (sampleStore.getLock (specUtil sampleParentInfo) sampleVmAction
              (World.fresh 0 Second)).err = some e)) :=
  ⟨rfl, (getLock_result (specUtil sampleParentInfo) sampleStore sampleVmAction
    (World.fresh 0 Second) "vm-77" rfl).1⟩

/-- C6: when `NewLockHelper` succeeds for the key, `getLockHelper` calls into the helper
package exactly twice: `NewLockHelper` on the key and the store's own lock map, then `Trylock`
once on the helper obtained, with a wait of 300 seconds and a poll interval of 10 seconds.
The world it returns is the one `Trylock` returned, so nothing is attempted afterwards.  The
wait is 30 poll intervals and fits a 64-bit duration.  The helper of the specification is
bound to the key and to the store's lock map and does not hold the lock yet. -/
theorem getLockHelper_single_trylock (U : Util) (a : ActionLockStore) (key : String)
    (w : World) (h : LockHelper) (hnew : U.NewLockHelper key a.lockMap w = .ok h) :
    (a.getLockHelper U key w).calls
        = [Call.NewLockHelper key a.lockMap,
           Call.Trylock h defaultWaitLockTimeOut defaultWaitLockSleep]
      ∧ (a.getLockHelper U key w).world
          = (U.Trylock h defaultWaitLockTimeOut defaultWaitLockSleep w).2.2
      ∧ defaultWaitLockTimeOut = 300 * Second
      ∧ defaultWaitLockSleep = 10 * Second
      ∧ defaultWaitLockTimeOut = 30 * defaultWaitLockSleep
      ∧ defaultWaitLockTimeOut < 2 ^ 63
      ∧ (U.NewLockHelper = specNewLockHelper → h = ⟨key, a.lockMap, false⟩) := by
  refine ⟨?_, ?_, by decide, by decide, by decide, by decide, ?_⟩
  · rcases htry : U.Trylock h defaultWaitLockTimeOut defaultWaitLockSleep w with ⟨oe, h1, w1⟩
    cases oe <;> simp [ActionLockStore.getLockHelper, hnew, htry]
  · rcases htry : U.Trylock h defaultWaitLockTimeOut defaultWaitLockSleep w with ⟨oe, h1, w1⟩
    cases oe <;> simp [ActionLockStore.getLockHelper, hnew, htry]
  · intro hN
    rw [hN] at hnew
    exact (specNewLockHelper_ok key a.lockMap w h hnew).2

/-- Witness of C6: for the key `vm-77` on a fresh world the two calls are `NewLockHelper` and
one `Trylock` with 300 s and 10 s. -/
theorem getLockHelper_single_trylock_witness :
    (sampleStore.getLockHelper (specUtil sampleParentInfo) "vm-77" (World.fresh 0 Second)).calls
      = [Call.NewLockHelper "vm-77" 0,
         Call.Trylock ⟨"vm-77", 0, false⟩ 300000000000 10000000000] :=
  (getLockHelper_single_trylock (specUtil sampleParentInfo) sampleStore "vm-77"
    (World.fresh 0 Second) ⟨"vm-77", 0, false⟩ rfl).1

/-- C7: with the helper of the specification, when the derived key is the empty string
`getLock` returns a nil helper and the `InvalidKey` error of `NewLockHelper`; the only call is
that `NewLockHelper`, `Trylock` is not called, and the world, lock maps included, is unchanged.
A non-pod action whose target SE id is empty or missing, and a bare pod whose UID is empty,
derive the empty key. -/
theorem getLock_empty_key (parentInfo : Pod → String × String × Option Error)
    (a : ActionLockStore) (actionItem : Option ActionItemDTO) (w : World)
    (hkey : a.getLockKey (specUtil parentInfo) actionItem = ("", none)) :
    ((a.getLock (specUtil parentInfo) actionItem w).lock = none
        ∧ (a.getLock (specUtil parentInfo) actionItem w).err = some Error.invalidKey
        ∧ (a.getLock (specUtil parentInfo) actionItem w).calls
            = [Call.NewLockHelper "" a.lockMap]
        ∧ (a.getLock (specUtil parentInfo) actionItem w).world = w)
      ∧ (∀ other : Option ActionItemDTO, a.podFunc other = none →
          EntityDTO.GetId (ActionItemDTO.GetTargetSE other) = "" →
          a.getLockKey (specUtil parentInfo) other = ("", none))
      ∧ (∀ (other : Option ActionItemDTO) (pod : Pod) (parentName : String),
          a.podFunc other = some pod → parentInfo pod = ("", parentName, none) →
          pod.UID = "" → a.getLockKey (specUtil parentInfo) other = ("", none)) := by
  refine ⟨?_, ?_, ?_⟩
  · rw [getLock_eq_new_error (specUtil parentInfo) a actionItem w "" Error.invalidKey hkey
      (by simp [specUtil, specNewLockHelper])]
    exact ⟨rfl, rfl, rfl, rfl⟩
  · intro other hnone hid
    simp [ActionLockStore.getLockKey, hnone, hid]
  · intro other pod parentName hpod hinfo huid
    simp [ActionLockStore.getLockKey, hpod, getPodLockKey, specUtil, hinfo, huid]

/-- Witness of C7: an action without pod and without target SE, on a fresh world, fails with
`InvalidKey` after the single call to `NewLockHelper`. -/
theorem getLock_empty_key_witness :
    ((sampleStore.getLock (specUtil sampleParentInfo) (some ⟨none, none⟩)
        (World.fresh 0 Second)).lock = none
      ∧ (sampleStore.getLock (specUtil sampleParentInfo) (some ⟨none, none⟩)
        (World.fresh 0 Second)).err = some Error.invalidKey
      ∧ (sampleStore.getLock (specUtil sampleParentInfo) (some ⟨none, none⟩)
        (World.fresh 0 Second)).calls = [Call.NewLockHelper "" 0]
      ∧ (sampleStore.getLock (specUtil sampleParentInfo) (some ⟨none, none⟩)
        (World.fresh 0 Second)).world = World.fresh 0 Second) :=
  (getLock_empty_key sampleParentInfo sampleStore (some ⟨none, none⟩) (World.fresh 0 Second)
    rfl).1

/-- Running two interleavings one after the other. -/
theorem World.run_append (ops1 ops2 : List Op) :
    ∀ w : World, w.run (ops1 ++ ops2) = (w.run ops1).run ops2 := by
  induction ops1 with
  | nil => intro w; rfl
  | cons op rest ih => intro w; simp [World.run, ih]

/-- A granted `Acquire` starts a holder's entry. -/
theorem HeldSince_of_granted (w w1 : World) (emap : MapRef) (key : String)
    (h : w.Acquire emap key = (true, w1)) :
    HeldSince emap key w.now (w.maps emap).ttl w1 := by
  unfold World.Acquire ExpirationMap.Acquire at h
  by_cases hl : (w.maps emap).live key w.now = true
  · simp [hl] at h
  · simp [hl] at h
    subst h
    refine ⟨le_refl _, by simp, w.now + (w.maps emap).ttl, by simp, le_refl _⟩

/-- While the holder's entry is there, an `Acquire` for the key is granted only once the entry
has expired. -/
theorem HeldSince_granted_expired (emap : MapRef) (key : String) (t0 ttl0 : Nat) (w : World)
    (hinv : HeldSince emap key t0 ttl0 w) (h : (w.Acquire emap key).1 = true) :
    t0 + ttl0 ≤ w.now := by
  obtain ⟨_, _, e, hmem, hle⟩ := hinv
  unfold World.Acquire ExpirationMap.Acquire at h
  by_cases hl : (w.maps emap).live key w.now = true
  · simp [hl] at h
  · have hnot : ¬ w.now < e := by
      intro hlt
      apply hl
      unfold ExpirationMap.live
      rw [List.any_eq_true]
      exact ⟨(key, e), hmem, by simp [hlt]⟩
    omega

/-- Every atomic step other than a release of the key on this table keeps the holder's
entry. -/
theorem HeldSince_step (emap : MapRef) (key : String) (t0 ttl0 : Nat) (w : World) (op : Op)
    (hinv : HeldSince emap key t0 ttl0 w) (hop : op ≠ Op.release emap key) :
    HeldSince emap key t0 ttl0 (w.step op).2 := by
  obtain ⟨ht, httl, e, hmem, hle⟩ := hinv
  cases op with
  | tick d =>
    refine ⟨?_, httl, e, hmem, hle⟩
    show t0 ≤ w.now + d
    omega
  | acquire emap2 key2 =>
    by_cases hm : emap2 = emap
    · subst hm
      show HeldSince emap2 key t0 ttl0 (w.Acquire emap2 key2).2
      unfold World.Acquire ExpirationMap.Acquire
      by_cases hl : (w.maps emap2).live key2 w.now = true
      · simp only [hl, if_true]
        refine ⟨ht, ?_, e, ?_, hle⟩
        · simpa using httl
        · simpa using hmem
      · simp only [hl]
        by_cases hk : key2 = key
        · subst hk
          have hnot : ¬ w.now < e := by
            intro hlt
            apply hl
            unfold ExpirationMap.live
            rw [List.any_eq_true]
            exact ⟨(key2, e), hmem, by simp [hlt]⟩
          refine ⟨ht, by simpa using httl, w.now + (w.maps emap2).ttl, by simp, ?_⟩
          omega
        · refine ⟨ht, by simpa using httl, e, ?_, hle⟩
          simp
          right
          exact ⟨hmem, fun hh => hk hh.symm⟩
    · show HeldSince emap key t0 ttl0 (w.Acquire emap2 key2).2
      unfold World.Acquire
      refine ⟨ht, ?_, e, ?_, hle⟩
      · simpa [Function.update_noteq (Ne.symm hm)] using httl
      · simpa [Function.update_noteq (Ne.symm hm)] using hmem
  | release emap2 key2 =>
    show HeldSince emap key t0 ttl0 (w.Release emap2 key2)
    unfold World.Release ExpirationMap.Release
    by_cases hm : emap2 = emap
    · subst hm
      have hk : key2 ≠ key := by
        intro hk
        apply hop
        rw [hk]
      refine ⟨ht, by simpa using httl, e, ?_, hle⟩
      simp
      exact ⟨hmem, fun hh => hk hh.symm⟩
    · refine ⟨ht, ?_, e, ?_, hle⟩
      · simpa [Function.update_noteq (Ne.symm hm)] using httl
      · simpa [Function.update_noteq (Ne.symm hm)] using hmem
  | renew emap2 key2 =>
    show HeldSince emap key t0 ttl0 (w.Renew emap2 key2)
    unfold World.Renew ExpirationMap.Renew
    by_cases hm : emap2 = emap
    · subst hm
      by_cases hk : key = key2
      · refine ⟨ht, by simpa using httl, w.now + (w.maps emap2).ttl, ?_, ?_⟩
        · simp
          exact ⟨key, e, hmem, by simp [hk]⟩
        · omega
      · refine ⟨ht, by simpa using httl, e, ?_, hle⟩
        simp
        exact ⟨key, e, hmem, by simp [hk]⟩
    · refine ⟨ht, ?_, e, ?_, hle⟩
      · simpa [Function.update_noteq (Ne.symm hm)] using httl
      · simpa [Function.update_noteq (Ne.symm hm)] using hmem

/-- An interleaving without a release of the key on this table keeps the holder's entry. -/
theorem HeldSince_run (emap : MapRef) (key : String) (t0 ttl0 : Nat) (ops : List Op) :
    ∀ w : World, HeldSince emap key t0 ttl0 w → Op.release emap key ∉ ops →
      HeldSince emap key t0 ttl0 (w.run ops) := by
  induction ops with
  | nil => intro w h _; exact h
  | cons op rest ih =>
    intro w h hno
    simp only [List.mem_cons, not_or] at hno
    exact ih _ (HeldSince_step emap key t0 ttl0 w op h (fun hh => hno.1 hh.symm)) hno.2

/-- A successful polling loop is a sequence of polls of the key, the last of them a granted
`Acquire`. -/
theorem pollLoop_granted_trace (emap : MapRef) (key : String) (timeout interval : Nat) :
    ∀ (fuel elapsed : Nat) (w w1 : World),
      pollLoop emap key timeout interval fuel elapsed w = (true, w1) →
      ∃ pre : List Op, (∀ op ∈ pre, Op.isPollOf emap key op = true)
        ∧ (w.run pre).Acquire emap key = (true, w1) := by
  intro fuel
  induction fuel with
  | zero => intro elapsed w w1 h; simp [pollLoop] at h
  | succ n ih =>
    intro elapsed w w1 h
    rw [pollLoop] at h
    rcases hacq : w.Acquire emap key with ⟨ok, w2⟩
    rw [hacq] at h
    cases ok with
    | true =>
      simp at h
      subst h
      exact ⟨[], by simp, hacq⟩
    | false =>
      simp at h
      by_cases ht : timeout ≤ elapsed + interval
      · simp [ht] at h
      · simp [ht] at h
        obtain ⟨pre, hpre, hlast⟩ := ih _ _ _ h
        refine ⟨Op.acquire emap key :: Op.tick interval :: pre, ?_, ?_⟩
        · intro op hop
          simp only [List.mem_cons] at hop
          rcases hop with rfl | rfl | hop
          · simp [Op.isPollOf]
          · simp [Op.isPollOf]
          · exact hpre op hop
        · simpa [World.run, World.step, hacq] using hlast

/-- A helper returned by `getLock`, with the helper package of the specification, was granted
by an `Acquire` on the store's lock map that ended a sequence of polls of the derived key. -/
theorem getLock_granted_trace (parentInfo : Pod → String × String × Option Error)
    (a : ActionLockStore) (actionItem : Option ActionItemDTO) (w : World) (key : String)
    (h : LockHelper) (hkey : a.getLockKey (specUtil parentInfo) actionItem = (key, none))
    (hlock : (a.getLock (specUtil parentInfo) actionItem w).lock = some h) :
    ∃ pre : List Op, (∀ op ∈ pre, Op.isPollOf a.lockMap key op = true)
      ∧ (w.run pre).Acquire a.lockMap key
          = (true, (a.getLock (specUtil parentInfo) actionItem w).world) := by
  rcases hnew : (specUtil parentInfo).NewLockHelper key a.lockMap w with e | h0
  · rw [getLock_eq_new_error _ a actionItem w key e hkey hnew] at hlock
    cases hlock
  · have hb := specNewLockHelper_ok key a.lockMap w h0 hnew
    rcases htry : (specUtil parentInfo).Trylock h0 defaultWaitLockTimeOut defaultWaitLockSleep w
      with ⟨oe, h1, w1⟩
    cases oe with
    | some e =>
      rw [getLock_eq_try_error _ a actionItem w w1 key h0 h1 e hkey hnew htry] at hlock
      cases hlock
    | none =>
      rw [getLock_eq_try_ok _ a actionItem w w1 key h0 h1 hkey hnew htry]
      show ∃ pre : List Op, (∀ op ∈ pre, Op.isPollOf a.lockMap key op = true)
        ∧ (w.run pre).Acquire a.lockMap key = (true, w1)
      have htry2 : specTrylock h0 defaultWaitLockTimeOut defaultWaitLockSleep w
          = (none, h1, w1) := htry
      unfold specTrylock at htry2
      rw [hb.2] at htry2
      rcases hp : pollLoop a.lockMap key defaultWaitLockTimeOut defaultWaitLockSleep
        (pollBudget defaultWaitLockTimeOut defaultWaitLockSleep) 0 w with ⟨ok, w2⟩
      simp only [hp] at htry2
      cases ok with
      | false => simp at htry2
      | true =>
        simp at htry2
        obtain ⟨_, hw⟩ := htry2
        subst hw
        exact pollLoop_granted_trace _ _ _ _ _ _ _ _ hp

/-- C8: mutual exclusion.  On the lock table of the specification, under any interleaving
`mid` of atomic steps of any callers, if an `Acquire` of `key` on the table at `emap` is
granted and a later `Acquire` of the same key on the same table is granted too, then `mid`
holds a release of that key on that table or the first holder's entry, made at time `now`
with the table's time-to-live, has expired by the time of the second grant.  The same holds
for two `getLock` calls through the same lock map whose action items derive the same key and
which both return a helper, whatever steps `mid` other callers take between them. -/
theorem getLock_mutual_exclusion :
    (∀ (w w1 : World) (emap : MapRef) (key : String) (mid : List Op),
        w.Acquire emap key = (true, w1) →
        ((w1.run mid).Acquire emap key).1 = true →
        Op.release emap key ∈ mid ∨ w.now + (w.maps emap).ttl ≤ (w1.run mid).now)
      ∧ ∀ (parentInfo : Pod → String × String × Option Error) (a1 a2 : ActionLockStore)
          (item1 item2 : Option ActionItemDTO) (w : World) (key : String) (mid : List Op)
          (h1 h2 : LockHelper),
          a1.lockMap = a2.lockMap →
          a1.getLockKey (specUtil parentInfo) item1 = (key, none) →
          a2.getLockKey (specUtil parentInfo) item2 = (key, none) →
          (a1.getLock (specUtil parentInfo) item1 w).lock = some h1 →
          (a2.getLock (specUtil parentInfo) item2
              ((a1.getLock (specUtil parentInfo) item1 w).world.run mid)).lock = some h2 →
          Op.release a1.lockMap key ∈ mid
            ∨ (a1.getLock (specUtil parentInfo) item1 w).world.now
                + (((a1.getLock (specUtil parentInfo) item1 w).world).maps a1.lockMap).ttl
              ≤ (a2.getLock (specUtil parentInfo) item2
                  ((a1.getLock (specUtil parentInfo) item1 w).world.run mid)).world.now := by
  have trace : ∀ (w w1 : World) (emap : MapRef) (key : String) (mid : List Op),
      w.Acquire emap key = (true, w1) →
      ((w1.run mid).Acquire emap key).1 = true →
      Op.release emap key ∈ mid ∨ w.now + (w.maps emap).ttl ≤ (w1.run mid).now := by
    intro w w1 emap key mid hfirst hsecond
    by_cases hrel : Op.release emap key ∈ mid
    · exact Or.inl hrel
    · right
      have hinv := HeldSince_run emap key _ _ mid w1 (HeldSince_of_granted w w1 emap key hfirst)
        hrel
      exact HeldSince_granted_expired emap key _ _ _ hinv hsecond
  refine ⟨trace, ?_⟩
  intro parentInfo a1 a2 item1 item2 w key mid h1 h2 hmap hk1 hk2 hl1 hl2
  obtain ⟨pre1, _, hg1⟩ := getLock_granted_trace parentInfo a1 item1 w key h1 hk1 hl1
  obtain ⟨pre2, hpre2, hg2⟩ := getLock_granted_trace parentInfo a2 item2 _ key h2 hk2 hl2
  rw [← hmap] at hg2 hpre2
  have hg := World.Acquire_granted _ _ _ _ hg1
  have hinv0 := HeldSince_of_granted _ _ _ _ hg1
  have hsecond : ((((a1.getLock (specUtil parentInfo) item1 w).world).run
      (mid ++ pre2)).Acquire a1.lockMap key).1 = true := by
    rw [World.run_append, hg2]
  have hnow2 := (World.Acquire_granted _ _ _ _ hg2).1
  rcases trace _ _ _ _ (mid ++ pre2) hg1 hsecond with hrel | hexp
  · left
    rcases List.mem_append.mp hrel with hm | hp
    · exact hm
    · have := hpre2 _ hp
      simp [Op.isPollOf] at this
  · right
    rw [World.run_append] at hexp
    rw [hnow2, hg.1, hinv0.2.1]
    exact hexp

/-- Witness of C8: with a time-to-live of one second, a second `getLock` on `vm-77` two
seconds after the first is granted, and the first entry has expired by then. -/
theorem getLock_mutual_exclusion_witness :
    Op.release 0 "vm-77" ∈ [Op.tick (2 * Second)]
      ∨ (sampleStore.getLock (specUtil sampleParentInfo) sampleVmAction
            (World.fresh 0 Second)).world.now
          + (((sampleStore.getLock (specUtil sampleParentInfo) sampleVmAction
              (World.fresh 0 Second)).world).maps 0).ttl
        ≤ (sampleStore.getLock (specUtil sampleParentInfo) sampleVmAction
            ((sampleStore.getLock (specUtil sampleParentInfo) sampleVmAction
              (World.fresh 0 Second)).world.run [Op.tick (2 * Second)])).world.now :=
  getLock_mutual_exclusion.2 sampleParentInfo sampleStore sampleStore sampleVmAction
    sampleVmAction (World.fresh 0 Second) "vm-77" [Op.tick (2 * Second)]
    ⟨"vm-77", 0, true⟩ ⟨"vm-77", 0, true⟩ rfl rfl rfl rfl rfl

/-- One address extends the single entry of the service by its pod, if it has one. -/
theorem addBackendPod_singleEntry (serviceID : String) (pods : List String)
    (address : EndpointAddress) :
    addBackendPod serviceID (singleEntry serviceID pods) address
      = singleEntry serviceID
          (pods ++ (address.TargetRef.map (fun t => t.Namespace ++ "/" ++ t.Name)).toList) := by
  cases hT : address.TargetRef with
  | none => simp [addBackendPod, hT]
  | some target =>
    by_cases hp : pods = []
    · simp [addBackendPod, hT, singleEntry, hp, mapGet, mapSet]
    · simp [addBackendPod, hT, singleEntry, hp, mapGet, mapSet]

/-- The inner loop over the addresses of one subset. -/
theorem foldl_addBackendPod (serviceID : String) (addresses : List EndpointAddress) :
    ∀ pods : List String,
      addresses.foldl (addBackendPod serviceID) (singleEntry serviceID pods)
        = singleEntry serviceID (pods ++ addresses.filterMap (fun a =>
            a.TargetRef.map (fun t => t.Namespace ++ "/" ++ t.Name))) := by
  induction addresses with
  | nil => intro pods; simp
  | cons a rest ih =>
    intro pods
    rw [List.foldl_cons, addBackendPod_singleEntry, ih]
    cases hT : a.TargetRef <;> simp [List.filterMap_cons, hT]

/-- The outer loop over the subsets. -/
theorem foldl_subsets (serviceID : String) (subsets : List EndpointSubset) :
    ∀ pods : List String,
      subsets.foldl
          (fun m endpointSubset => endpointSubset.Addresses.foldl (addBackendPod serviceID) m)
          (singleEntry serviceID pods)
        = singleEntry serviceID (pods ++ (subsets.map (fun s =>
            s.Addresses.filterMap (fun a =>
              a.TargetRef.map (fun t => t.Namespace ++ "/" ++ t.Name)))).flatten) := by
  induction subsets with
  | nil => intro pods; simp
  | cons s rest ih =>
    intro pods
    rw [List.foldl_cons, foldl_addBackendPod, ih]
    simp [List.append_assoc]

/-- C10: `findBackendPodPerService` returns nil when the endpoint map has no entry, or a nil
entry, under `namespace/name` of the service.  Otherwise it returns a map that is empty when no
address of the endpoints object has a `TargetRef`, and that otherwise has the single key
`namespace/name` of the service, mapped to the `namespace/name` of the `TargetRef` of every
address that has one, in subset order and then address order, duplicates kept. -/
theorem findBackendPodPerService_spec (service : Service)
    (endpointMap : GoMap String (Option Endpoints)) :
    (endpointAt endpointMap (service.Namespace ++ "/" ++ service.Name) = none ↔
        mapGet endpointMap (service.Namespace ++ "/" ++ service.Name) = none
          ∨ mapGet endpointMap (service.Namespace ++ "/" ++ service.Name) = some none)
      ∧ (endpointAt endpointMap (service.Namespace ++ "/" ++ service.Name) = none →
          findBackendPodPerService service endpointMap = none)
      ∧ ∀ ep : Endpoints,
          endpointAt endpointMap (service.Namespace ++ "/" ++ service.Name) = some ep →
          findBackendPodPerService service endpointMap
              = some (if backendPods ep = [] then []
                  else [(service.Namespace ++ "/" ++ service.Name, backendPods ep)])
            ∧ (backendPods ep ≠ [] ↔
                ∃ s ∈ ep.Subsets, ∃ a ∈ s.Addresses, ∃ t, a.TargetRef = some t) := by
  refine ⟨?_, ?_, ?_⟩
  · unfold endpointAt
    rcases mapGet endpointMap (service.Namespace ++ "/" ++ service.Name) with _ | _ | _ <;> simp
  · intro hnone
    simp [findBackendPodPerService, hnone]
  · intro ep hep
    refine ⟨?_, ?_⟩
    · have h := foldl_subsets (service.Namespace ++ "/" ++ service.Name) ep.Subsets []
      simp only [singleEntry, if_true, List.nil_append] at h
      simp only [findBackendPodPerService, hep, backendPods]
      rw [h]
    · simp only [backendPods, ne_eq, List.flatten_eq_nil_iff, List.mem_map, not_forall]
      constructor
      · rintro ⟨l, ⟨s, hs, rfl⟩, hne⟩
        rw [List.filterMap_eq_nil_iff] at hne
        simp only [not_forall] at hne
        obtain ⟨a, ha, hsome⟩ := hne
        cases hT : a.TargetRef with
        | none => simp [hT] at hsome
        | some t => exact ⟨s, hs, a, ha, t, hT⟩
      · rintro ⟨s, hs, a, ha, t, ht⟩
        refine ⟨_, ⟨s, hs, rfl⟩, ?_⟩
        rw [List.filterMap_eq_nil_iff]
        simp only [not_forall]
        exact ⟨a, ha, by simp [ht]⟩

/-- Witness of C10: a service with two subsets, one address without `TargetRef` and a pod
listed twice. -/
theorem findBackendPodPerService_spec_witness :
    findBackendPodPerService ⟨"ns", "svc"⟩
        [("ns/svc", some ⟨"ns", "svc",
          [⟨[⟨some ⟨"a", "p1"⟩⟩, ⟨none⟩]⟩, ⟨[⟨some ⟨"a", "p1"⟩⟩, ⟨some ⟨"b", "p2"⟩⟩]⟩]⟩)]
      = some [("ns/svc", ["a/p1", "a/p1", "b/p2"])] :=
  ((findBackendPodPerService_spec ⟨"ns", "svc"⟩
      [("ns/svc", some ⟨"ns", "svc",
        [⟨[⟨some ⟨"a", "p1"⟩⟩, ⟨none⟩]⟩, ⟨[⟨some ⟨"a", "p1"⟩⟩, ⟨some ⟨"b", "p2"⟩⟩]⟩]⟩)]).2.2
    ⟨"ns", "svc", [⟨[⟨some ⟨"a", "p1"⟩⟩, ⟨none⟩]⟩, ⟨[⟨some ⟨"a", "p1"⟩⟩, ⟨some ⟨"b", "p2"⟩⟩]⟩]⟩
    rfl).1

/-- The keys of a map after an assignment. -/
theorem mapSet_keys {α β : Type} [DecidableEq α] (k : α) (v : β) :
    ∀ m : GoMap α β, (mapSet m k v).map Prod.fst
      = if k ∈ m.map Prod.fst then m.map Prod.fst else m.map Prod.fst ++ [k] := by
  intro m
  induction m with
  | nil => simp [mapSet]
  | cons e rest ih =>
    obtain ⟨k1, v1⟩ := e
    by_cases hk : k1 = k
    · simp [mapSet, hk]
    · have hk2 : ¬ k = k1 := fun h => hk h.symm
      simp only [mapSet, hk, if_false, List.map_cons, ih, List.mem_cons, hk2, false_or]
      by_cases hmem : k ∈ rest.map Prod.fst
      · simp [hmem]
      · simp [hmem]

/-- An assignment keeps the keys distinct. -/
theorem mapSet_nodup {α β : Type} [DecidableEq α] (k : α) (v : β) (m : GoMap α β)
    (h : (m.map Prod.fst).Nodup) : ((mapSet m k v).map Prod.fst).Nodup := by
  rw [mapSet_keys]
  by_cases hmem : k ∈ m.map Prod.fst
  · simp only [hmem, if_true]
    exact h
  · simp only [hmem, if_false]
    rw [List.nodup_append]
    refine ⟨h, List.nodup_singleton k, ?_⟩
    intro x hx hx2
    simp only [List.mem_singleton] at hx2
    subst hx2
    exact hmem hx

/-- The entries of a map with distinct keys after an assignment. -/
theorem mem_mapSet {α β : Type} [DecidableEq α] (k : α) (v : β) (k2 : α) (v2 : β) :
    ∀ m : GoMap α β, (m.map Prod.fst).Nodup →
      ((k2, v2) ∈ mapSet m k v ↔ (k2 = k ∧ v2 = v) ∨ (k2 ≠ k ∧ (k2, v2) ∈ m)) := by
  intro m
  induction m with
  | nil =>
    intro _
    simp [mapSet]
  | cons e rest ih =>
    obtain ⟨k1, v1⟩ := e
    intro hnd
    simp only [List.map_cons, List.nodup_cons] at hnd
    by_cases hk : k1 = k
    · subst hk
      simp only [mapSet, if_true, List.mem_cons, Prod.mk.injEq]
      constructor
      · rintro (h | h)
        · exact Or.inl h
        · right
          refine ⟨?_, Or.inr h⟩
          intro hh
          subst hh
          exact hnd.1 (List.mem_map.mpr ⟨(k2, v2), h, rfl⟩)
      · rintro (h | ⟨hne, h | h⟩)
        · exact Or.inl h
        · exact absurd h.1 hne
        · exact Or.inr h
    · simp only [mapSet, hk, if_false, List.mem_cons, Prod.mk.injEq, ih hnd.2]
      constructor
      · rintro (⟨h1, h2⟩ | h | h)
        · right
          refine ⟨?_, Or.inl ⟨h1, h2⟩⟩
          rw [h1]
          exact hk
        · exact Or.inl h
        · exact Or.inr ⟨h.1, Or.inr h.2⟩
      · rintro (h | ⟨hne, h | h⟩)
        · exact Or.inr (Or.inl h)
        · exact Or.inl h
        · exact Or.inr (Or.inr ⟨hne, h⟩)

/-- In a map with distinct keys the lookup finds exactly the entries. -/
theorem mapGet_eq_some_iff {α β : Type} [DecidableEq α] (k : α) (v : β) :
    ∀ m : GoMap α β, (m.map Prod.fst).Nodup → (mapGet m k = some v ↔ (k, v) ∈ m) := by
  intro m
  induction m with
  | nil =>
    intro _
    simp [mapGet]
  | cons e rest ih =>
    obtain ⟨k1, v1⟩ := e
    intro hnd
    simp only [List.map_cons, List.nodup_cons] at hnd
    by_cases hk : k1 = k
    · subst hk
      simp only [mapGet, if_true, Option.some.injEq, List.mem_cons, Prod.mk.injEq, true_and]
      constructor
      · intro h
        exact Or.inl h.symm
      · rintro (h | h)
        · exact h.symm
        · exact absurd (List.mem_map.mpr ⟨(k1, v), h, rfl⟩) hnd.1
    · have hk2 : ¬ k = k1 := fun h => hk h.symm
      simp only [mapGet, hk, if_false, ih hnd.2, List.mem_cons, Prod.mk.injEq, hk2, false_and,
        false_or]

/-- Fuel beyond what reaches the timeout does not change the polling loop. -/
theorem pollLoop_fuel_extra (emap : MapRef) (key : String) (timeout interval extra : Nat) :
    ∀ (fuel elapsed : Nat) (w : World), 0 < fuel → timeout ≤ elapsed + fuel * interval →
      pollLoop emap key timeout interval (fuel + extra) elapsed w
        = pollLoop emap key timeout interval fuel elapsed w := by
  intro fuel
  induction fuel with
  | zero => intro elapsed w h; omega
  | succ n ih =>
    intro elapsed w _ hle
    have hsucc : n + 1 + extra = (n + extra) + 1 := by omega
    rw [hsucc, pollLoop, pollLoop]
    rcases w.Acquire emap key with ⟨ok, w2⟩
    cases ok with
    | true => rfl
    | false =>
      by_cases ht : timeout ≤ elapsed + interval
      · simp [ht]
      · simp only [ht, if_false]
        have hn : 0 < n := by
          rcases Nat.eq_zero_or_pos n with h0 | h0
          · subst h0
            simp at hle
            omega
          · exact h0
        apply ih _ _ hn
        have : (n + 1) * interval = n * interval + interval := by ring
        omega

/-- The attempts allowed by `pollBudget` are enough: with a positive interval, the polling
loop of `TryLock` ends by a grant or by its timeout, never by want of fuel, so that any larger
bound on the attempts gives the same result. -/
theorem pollLoop_budget_enough (emap : MapRef) (key : String) (timeout interval extra : Nat)
    (w : World) (hpos : 0 < interval) :
    pollLoop emap key timeout interval (pollBudget timeout interval + extra) 0 w
      = pollLoop emap key timeout interval (pollBudget timeout interval) 0 w := by
  apply pollLoop_fuel_extra
  · unfold pollBudget
    exact Nat.succ_pos _
  · unfold pollBudget
    have h : timeout < (timeout / interval + 1) * interval :=
      (Nat.div_lt_iff_lt_mul hpos).mp (Nat.lt_succ_self _)
    rw [Nat.zero_add]
    exact Nat.le_of_lt h

/-- A release by a helper that holds the lock is the atomic step `release` for its key on its
table; a helper that does not hold leaves the world as it is. -/
theorem LockHelper.Release_step (h : LockHelper) (w : World) :
    (h.Release w).2 = if h.acquired then (w.step (Op.release h.emap h.key)).2 else w := by
  unfold LockHelper.Release
  cases h.acquired <;> simp [World.step]

/-- The timeout scenario of section 8 on the model: holder A has key `Y`; `TryLock` with
timeout 30 and interval 10 by B fails with the lock timeout for `Y` after 30 time units. -/
theorem specTrylock_timeout_scenario :
    (specTrylock ⟨"Y", 0, false⟩ 30 10 ((World.fresh 0 1000).Acquire 0 "Y").2).1
        = some (Error.lockTimeout "Y" 30)
      ∧ (specTrylock ⟨"Y", 0, false⟩ 30 10 ((World.fresh 0 1000).Acquire 0 "Y").2).2.2.now
        = 30 := by
  constructor <;> rfl

/-- The expiry scenario of section 8 on the model: key `X` is acquired with a time-to-live of
one time unit and not released; once that time has passed a second `Acquire` is granted. -/
theorem Acquire_expiry_scenario :
    ((World.fresh 0 1).Acquire 0 "X").1 = true
      ∧ ((((World.fresh 0 1).Acquire 0 "X").2).Acquire 0 "X").1 = false
      ∧ (((((World.fresh 0 1).Acquire 0 "X").2).sleep 1).Acquire 0 "X").1 = true := by
  refine ⟨?_, ?_, ?_⟩ <;> rfl

/-- Two lists that split at a separator absent from both left parts have the same parts. -/
theorem append_cons_inj {α : Type} (x : α) :
    ∀ (a c b d : List α), x ∉ a → x ∉ c → a ++ x :: b = c ++ x :: d → a = c ∧ b = d := by
  intro a
  induction a with
  | nil =>
    intro c b d _ hc h
    cases c with
    | nil =>
      simp only [List.nil_append, List.cons.injEq, true_and] at h
      exact ⟨rfl, h⟩
    | cons z c1 =>
      simp only [List.nil_append, List.cons_append, List.cons.injEq] at h
      exact absurd (by simp [h.1]) hc
  | cons y a1 ih =>
    intro c b d ha hc h
    cases c with
    | nil =>
      simp only [List.nil_append, List.cons_append, List.cons.injEq] at h
      exact absurd (by simp [h.1]) ha
    | cons z c1 =>
      simp only [List.cons_append, List.cons.injEq] at h
      simp only [List.mem_cons, not_or] at ha hc
      obtain ⟨hac, hbd⟩ := ih c1 b d ha.2 hc.2 h.2
      exact ⟨by rw [h.1, hac], hbd⟩

/-- Two identifiers `namespace/name` whose namespaces contain no slash are equal only if the
namespaces and the names are. -/
theorem namespacedName_inj (ns1 name1 ns2 name2 : String) (h1 : '/' ∉ ns1.data)
    (h2 : '/' ∉ ns2.data) (h : ns1 ++ "/" ++ name1 = ns2 ++ "/" ++ name2) :
    ns1 = ns2 ∧ name1 = name2 := by
  have hs : ("/" : String).data = ['/'] := rfl
  have hd := congrArg String.data h
  simp only [String.data_append, hs, List.append_assoc, List.singleton_append] at hd
  obtain ⟨ha, hb⟩ := append_cons_inj '/' _ _ _ _ h1 h2 hd
  exact ⟨String.ext ha, String.ext hb⟩

/-- The key of a controller-owned pod, by its characters. -/
theorem controllerKey_data (kind ns name : String) :
    (kind ++ "-" ++ ns ++ "/" ++ name).data
      = kind.data ++ '-' :: (ns.data ++ '/' :: name.data) := by
  have h1 : ("-" : String).data = ['-'] := rfl
  have h2 : ("/" : String).data = ['/'] := rfl
  simp [String.data_append, h1, h2]

/-- C12: for two pods whose owner lookup succeeds: if both are controller-owned, neither parent
kind contains a dash and neither namespace contains a slash, then `getPodLockKey` returns the
same key only if the parent kinds, the namespaces and the parent names are equal; and a bare
pod whose UID contains no slash never gets the key of a controller-owned pod.  Without these
restrictions keys do coincide: a bare pod with UID `ReplicaSet-ns1/web` and a pod of replica
set `web` in `ns1`; kind `a-b` in namespace `c` and kind `a` in namespace `b-c`; namespace
`a/b` with parent `c` and namespace `a` with parent `b/c`. -/
theorem getPodLockKey_injective (U : Util) (pod1 pod2 : Pod)
    (kind1 name1 kind2 name2 : String)
    (h1 : U.GetPodParentInfo pod1 = (kind1, name1, none))
    (h2 : U.GetPodParentInfo pod2 = (kind2, name2, none)) :
    (kind1 ≠ "" → kind2 ≠ "" → '-' ∉ kind1.data → '-' ∉ kind2.data →
        '/' ∉ pod1.Namespace.data → '/' ∉ pod2.Namespace.data →
        getPodLockKey U pod1 = getPodLockKey U pod2 →
        kind1 = kind2 ∧ pod1.Namespace = pod2.Namespace ∧ name1 = name2)
      ∧ (kind1 = "" → kind2 ≠ "" → '/' ∉ pod1.UID.data →
          getPodLockKey U pod1 ≠ getPodLockKey U pod2)
      ∧ getPodLockKey (specUtil sampleParentInfo) ⟨"ns1", "bare", "ReplicaSet-ns1/web"⟩
          = getPodLockKey (specUtil sampleParentInfo) ⟨"ns1", "web-1", "uid-1"⟩
      ∧ getPodLockKey (specUtil dashedParentInfo) ⟨"c", "x", "uid-1"⟩
          = getPodLockKey (specUtil dashedParentInfo) ⟨"b-c", "y", "uid-2"⟩
      ∧ getPodLockKey (specUtil slashedParentInfo) ⟨"a/b", "x", "uid-1"⟩
          = getPodLockKey (specUtil slashedParentInfo) ⟨"a", "y", "uid-2"⟩ := by
  refine ⟨?_, ?_, by decide, by decide, by decide⟩
  · intro hk1 hk2 hd1 hd2 hs1 hs2 heq
    have e1 : getPodLockKey U pod1
        = (kind1 ++ "-" ++ pod1.Namespace ++ "/" ++ name1, none) := by
      simp [getPodLockKey, h1, hk1]
    have e2 : getPodLockKey U pod2
        = (kind2 ++ "-" ++ pod2.Namespace ++ "/" ++ name2, none) := by
      simp [getPodLockKey, h2, hk2]
    rw [e1, e2] at heq
    have hkey := congrArg (fun p => p.1.data) heq
    simp only [controllerKey_data] at hkey
    obtain ⟨hkind, hrest⟩ := append_cons_inj '-' _ _ _ _ hd1 hd2 hkey
    obtain ⟨hns, hname⟩ := append_cons_inj '/' _ _ _ _ hs1 hs2 hrest
    exact ⟨String.ext hkind, String.ext hns, String.ext hname⟩
  · intro hk1 hk2 hs heq
    have e1 : getPodLockKey U pod1 = (pod1.UID, none) := by
      simp [getPodLockKey, h1, hk1]
    have e2 : getPodLockKey U pod2
        = (kind2 ++ "-" ++ pod2.Namespace ++ "/" ++ name2, none) := by
      simp [getPodLockKey, h2, hk2]
    rw [e1, e2] at heq
    have hkey := congrArg (fun p => p.1.data) heq
    simp only [controllerKey_data] at hkey
    apply hs
    rw [hkey]
    simp

/-- Witness of C12: the bare pod with UID `pod-uid-123` and a pod of replica set `web` get
different keys. -/
theorem getPodLockKey_injective_witness :
    getPodLockKey (specUtil sampleParentInfo) ⟨"ns1", "bare", "pod-uid-123"⟩
      ≠ getPodLockKey (specUtil sampleParentInfo) ⟨"ns1", "web-1", "uid-1"⟩ :=
  (getPodLockKey_injective (specUtil sampleParentInfo) ⟨"ns1", "bare", "pod-uid-123"⟩
    ⟨"ns1", "web-1", "uid-1"⟩ "" "" "ReplicaSet" "web" rfl rfl).2.1 rfl (by decide) (by decide)

/-- The lookup after an assignment. -/
theorem mapGet_mapSet {α β : Type} [DecidableEq α] (k : α) (v : β) (k2 : α) :
    ∀ m : GoMap α β, mapGet (mapSet m k v) k2 = if k = k2 then some v else mapGet m k2 := by
  intro m
  induction m with
  | nil => simp [mapSet, mapGet]
  | cons e rest ih =>
    obtain ⟨k1, v1⟩ := e
    by_cases hk : k1 = k
    · subst hk
      by_cases h2 : k1 = k2
      · simp [mapSet, mapGet, h2]
      · simp [mapSet, mapGet, h2]
    · by_cases h1 : k1 = k2
      · subst h1
        have hne : ¬ k = k1 := fun h => hk h.symm
        simp [mapSet, mapGet, hk, hne]
      · simp [mapSet, mapGet, hk, h1, ih]

/-- Finding with two tests that agree on the list. -/
theorem find?_agree {α : Type} (p q : α → Bool) :
    ∀ l : List α, (∀ x ∈ l, p x = q x) → l.find? p = l.find? q := by
  intro l
  induction l with
  | nil => intro _; rfl
  | cons a rest ih =>
    intro h
    have ha := h a (by simp)
    have hr := ih (fun x hx => h x (by simp [hx]))
    simp [List.find?_cons, ha, hr]

/-- The last endpoints object under a key, one object being put in front of the list. -/
theorem lastEndpointsAt_cons (ep : Endpoints) (rest : List Endpoints) (key : String) :
    lastEndpointsAt (ep :: rest) key
      = match lastEndpointsAt rest key with
        | some e => some e
        | none => if ep.Namespace ++ "/" ++ ep.Name = key then some ep else none := by
  unfold lastEndpointsAt
  rw [List.reverse_cons, List.find?_append, List.find?_singleton]
  cases List.find? (fun ep => decide (ep.Namespace ++ "/" ++ ep.Name = key)) rest.reverse with
  | none => simp
  | some e => simp

/-- The first loop of `ParseService` leaves under each key the last endpoints object stored
under it, on top of what the map held before. -/
theorem endpointAt_foldl (key : String) (endpointList : List Endpoints) :
    ∀ m : GoMap String (Option Endpoints),
      endpointAt
          (endpointList.foldl
            (fun endpointMap endpoint =>
              mapSet endpointMap (endpoint.Namespace ++ "/" ++ endpoint.Name) (some endpoint))
            m)
          key
        = match lastEndpointsAt endpointList key with
          | some e => some e
          | none => endpointAt m key := by
  induction endpointList with
  | nil => intro m; simp [lastEndpointsAt]
  | cons ep rest ih =>
    intro m
    rw [List.foldl_cons, ih, lastEndpointsAt_cons]
    cases lastEndpointsAt rest key with
    | some e => rfl
    | none =>
      by_cases hk : ep.Namespace ++ "/" ++ ep.Name = key
      · simp [endpointAt, mapGet_mapSet, hk]
      · simp [endpointAt, mapGet_mapSet, hk]

/-- The endpoint map built by `ParseService` holds under each key the last endpoints object of
the list stored under it. -/
theorem endpointAt_buildEndpointMap (endpointList : List Endpoints) (key : String) :
    endpointAt (buildEndpointMap endpointList) key = lastEndpointsAt endpointList key := by
  unfold buildEndpointMap
  rw [endpointAt_foldl]
  cases lastEndpointsAt endpointList key with
  | some e => rfl
  | none => simp [endpointAt, mapGet]

/-- The map returned by `findBackendPodPerService` for a service with an endpoints object. -/
theorem findBackendPodPerService_eq (service : Service)
    (endpointMap : GoMap String (Option Endpoints)) :
    findBackendPodPerService service endpointMap
      = match endpointAt endpointMap (service.Namespace ++ "/" ++ service.Name) with
        | none => none
        | some ep =>
          some (singleEntry (service.Namespace ++ "/" ++ service.Name) (backendPods ep)) := by
  cases hep : endpointAt endpointMap (service.Namespace ++ "/" ++ service.Name) with
  | none => simp [findBackendPodPerService, hep]
  | some ep =>
    have h := foldl_subsets (service.Namespace ++ "/" ++ service.Name) ep.Subsets []
    rw [List.nil_append] at h
    have h0 : singleEntry (service.Namespace ++ "/" ++ service.Name) []
        = ([] : GoMap String (List String)) := by
      simp [singleEntry]
    rw [h0] at h
    simp only [findBackendPodPerService, hep, backendPods]
    rw [h]

/-- The second loop of `ParseService` adds the entity DTO of the service, if it has one. -/
theorem parseOneService_eq (env : ProbeEnv) (endpointMap : GoMap String (Option Endpoints))
    (result : List sdk.EntityDTO) (service : Service) :
    parseOneService env endpointMap result service
      = result ++ (serviceDTO env service
          (endpointAt endpointMap (service.Namespace ++ "/" ++ service.Name))).toList := by
  unfold parseOneService
  rw [findBackendPodPerService_eq]
  cases hep : endpointAt endpointMap (service.Namespace ++ "/" ++ service.Name) with
  | none => simp [rangeOf, serviceDTO]
  | some ep =>
    by_cases hp : backendPods ep = []
    · simp [rangeOf, serviceDTO, singleEntry, hp]
    · have hlen : ¬ (backendPods ep).length < 1 := by
        intro hlt
        apply hp
        exact List.length_eq_zero.mp (by omega)
      simp [rangeOf, serviceDTO, singleEntry, hp, hlen]

/-- The second loop of `ParseService` over all services. -/
theorem foldl_parseOneService (env : ProbeEnv) (endpointMap : GoMap String (Option Endpoints))
    (serviceList : List Service) :
    ∀ result : List sdk.EntityDTO,
      serviceList.foldl (parseOneService env endpointMap) result
        = result ++ serviceList.filterMap (fun s =>
            serviceDTO env s (endpointAt endpointMap (s.Namespace ++ "/" ++ s.Name))) := by
  induction serviceList with
  | nil => intro result; simp
  | cons s rest ih =>
    intro result
    rw [List.foldl_cons, ih, parseOneService_eq, List.filterMap_cons]
    cases serviceDTO env s (endpointAt endpointMap (s.Namespace ++ "/" ++ s.Name)) with
    | none => simp
    | some dto => simp

/-- The loop of `buildEntityDTO` over the providers changes neither id nor display name. -/
theorem foldl_provider_id (l : List (sdk.ProviderDTO × List sdk.CommodityDTO)) :
    ∀ b : sdk.EntityDTOBuilder,
      (l.foldl (fun b e => (b.SetProvider e.1).BuysCommodities e.2) b).entity.Id = b.entity.Id
        ∧ (l.foldl (fun b e => (b.SetProvider e.1).BuysCommodities e.2) b).entity.DisplayName
            = b.entity.DisplayName := by
  induction l with
  | nil => intro b; exact ⟨rfl, rfl⟩
  | cons e rest ih =>
    intro b
    rw [List.foldl_cons]
    obtain ⟨h1, h2⟩ := ih ((b.SetProvider e.1).BuysCommodities e.2)
    rw [h1, h2]
    exact ⟨rfl, rfl⟩

/-- The id and the display name of the entity DTO built for a service name. -/
theorem buildEntityDTO_id (env : ProbeEnv) (serviceName : String)
    (m : List (sdk.ProviderDTO × List sdk.CommodityDTO)) :
    (buildEntityDTO env serviceName m).Id = "vApp-" ++ serviceName ++ "-" ++ env.ClusterID
      ∧ (buildEntityDTO env serviceName m).DisplayName
          = "vApp-" ++ serviceName ++ "-" ++ env.ClusterID := by
  unfold buildEntityDTO sdk.EntityDTOBuilder.Create
  obtain ⟨h1, h2⟩ := foldl_provider_id m
    ((sdk.NewEntityDTOBuilder sdk.EntityType.VIRTUAL_APPLICATION
      ("vApp-" ++ serviceName ++ "-" ++ env.ClusterID)).DisplayName
      ("vApp-" ++ serviceName ++ "-" ++ env.ClusterID))
  exact ⟨h1, h2⟩

/-- With namespaces free of slashes, the last endpoints object under the key of a service is
the last one with its namespace and name. -/
theorem lastEndpointsAt_eq_lastEndpointsOf (endpointList : List Endpoints) (service : Service)
    (hs : '/' ∉ service.Namespace.data) (he : ∀ ep ∈ endpointList, '/' ∉ ep.Namespace.data) :
    lastEndpointsAt endpointList (service.Namespace ++ "/" ++ service.Name)
      = lastEndpointsOf endpointList service := by
  unfold lastEndpointsAt lastEndpointsOf
  apply find?_agree
  intro ep hep
  have hmem : ep ∈ endpointList := List.mem_reverse.mp hep
  by_cases h : ep.Namespace ++ "/" ++ ep.Name = service.Namespace ++ "/" ++ service.Name
  · have := namespacedName_inj _ _ _ _ (he ep hmem) hs h
    simp [h, this.1, this.2]
  · have h2 : ¬ (ep.Namespace = service.Namespace ∧ ep.Name = service.Name) := by
      rintro ⟨h1, h2⟩
      apply h
      rw [h1, h2]
    simp [h, h2]

/-- An endpoints object has a backend pod exactly when one of its addresses has a
`TargetRef`. -/
theorem backendPods_ne_nil_iff (ep : Endpoints) :
    backendPods ep ≠ [] ↔ ∃ s ∈ ep.Subsets, ∃ a ∈ s.Addresses, ∃ t, a.TargetRef = some t := by
  simp only [backendPods, ne_eq, List.flatten_eq_nil_iff, List.mem_map, not_forall]
  constructor
  · rintro ⟨l, ⟨s, hs, rfl⟩, hne⟩
    rw [List.filterMap_eq_nil_iff] at hne
    simp only [not_forall] at hne
    obtain ⟨a, ha, hsome⟩ := hne
    cases hT : a.TargetRef with
    | none => simp [hT] at hsome
    | some t => exact ⟨s, hs, a, ha, t, hT⟩
  · rintro ⟨s, hs, a, ha, t, ht⟩
    refine ⟨_, ⟨s, hs, rfl⟩, ?_⟩
    rw [List.filterMap_eq_nil_iff]
    simp only [not_forall]
    exact ⟨a, ha, by simp [ht]⟩

/-- C11, as amended: `ParseService` returns a nil error and, in the order of `serviceList` and
with multiplicity, one entity DTO for each service for which the last endpoints object of
`endpointList` stored under the key `namespace/name` of the service has an address with a
`TargetRef`, and no other DTO.  Such a DTO has the id and the display name
`vApp-namespace/name-ClusterID`, and the result is no longer than `serviceList`.  When no
namespace of a service or of an endpoints object contains a slash, that endpoints object is
the last one with the namespace and the name of the service. -/
theorem ParseService_spec (env : ProbeEnv) (serviceList : List Service)
    (endpointList : List Endpoints) :
    (ParseService env serviceList endpointList).2 = none
      ∧ (ParseService env serviceList endpointList).1
          = serviceList.filterMap (fun s =>
              serviceDTO env s (lastEndpointsAt endpointList (s.Namespace ++ "/" ++ s.Name)))
      ∧ (∀ (s : Service) (ep : Option Endpoints),
          (∃ dto, serviceDTO env s ep = some dto) ↔
            ∃ e, ep = some e ∧ ∃ sub ∈ e.Subsets, ∃ a ∈ sub.Addresses, ∃ t,
              a.TargetRef = some t)
      ∧ (∀ (s : Service) (ep : Option Endpoints) (dto : sdk.EntityDTO),
          serviceDTO env s ep = some dto →
          dto.Id = "vApp-" ++ s.Namespace ++ "/" ++ s.Name ++ "-" ++ env.ClusterID
            ∧ dto.DisplayName
                = "vApp-" ++ s.Namespace ++ "/" ++ s.Name ++ "-" ++ env.ClusterID)
      ∧ (ParseService env serviceList endpointList).1.length ≤ serviceList.length
      ∧ ((∀ s ∈ serviceList, '/' ∉ s.Namespace.data) →
          (∀ ep ∈ endpointList, '/' ∉ ep.Namespace.data) →
          (ParseService env serviceList endpointList).1
            = serviceList.filterMap (fun s =>
                serviceDTO env s (lastEndpointsOf endpointList s))) := by
  have hmain : (ParseService env serviceList endpointList).1
      = serviceList.filterMap (fun s =>
          serviceDTO env s (lastEndpointsAt endpointList (s.Namespace ++ "/" ++ s.Name))) := by
    simp only [ParseService]
    rw [foldl_parseOneService, List.nil_append]
    apply List.filterMap_congr
    intro s _
    rw [endpointAt_buildEndpointMap]
  refine ⟨rfl, hmain, ?_, ?_, ?_, ?_⟩
  · intro s ep
    cases ep with
    | none => simp [serviceDTO]
    | some e =>
      by_cases hp : backendPods e = []
      · have hno := (not_congr (backendPods_ne_nil_iff e)).mp (fun h => h hp)
        simp only [serviceDTO, hp, if_true, Option.some.injEq, exists_eq_left']
        constructor
        · rintro ⟨dto, hd⟩
          cases hd
        · intro h
          exact absurd h hno
      · have hyes := (backendPods_ne_nil_iff e).mp hp
        simp only [serviceDTO, hp, if_false, Option.some.injEq, exists_eq_left']
        constructor
        · intro _
          exact hyes
        · intro _
          exact ⟨_, rfl⟩
  · intro s ep dto hd
    cases ep with
    | none => simp [serviceDTO] at hd
    | some e =>
      by_cases hp : backendPods e = []
      · simp [serviceDTO, hp] at hd
      · simp only [serviceDTO, hp, if_false, Option.some.injEq] at hd
        subst hd
        have h := buildEntityDTO_id env (s.Namespace ++ "/" ++ s.Name)
          (getCommoditiesBought env (backendPods e))
        have hassoc : "vApp-" ++ (s.Namespace ++ "/" ++ s.Name)
            = "vApp-" ++ s.Namespace ++ "/" ++ s.Name := by
          simp [String.append_assoc]
        rw [hassoc] at h
        exact h
  · rw [hmain]
    exact List.length_filterMap_le _ _
  · intro hs he
    rw [hmain]
    apply List.filterMap_congr
    intro s hmem
    rw [lastEndpointsAt_eq_lastEndpointsOf endpointList s (hs s hmem) he]

/-- Witness of C11: with slash-free namespaces, of two services the one whose endpoints object
has an address with a `TargetRef` gets its DTO `vApp-ns/svc-cluster-1`, the other none. -/
theorem ParseService_spec_witness :
    (ParseService sampleProbeEnv [⟨"ns", "svc"⟩, ⟨"ns", "idle"⟩]
        [⟨"ns", "svc", [⟨[⟨some ⟨"ns", "p1"⟩⟩]⟩]⟩, ⟨"ns", "idle", [⟨[⟨none⟩]⟩]⟩]).1
      = [⟨sdk.EntityType.VIRTUAL_APPLICATION, "vApp-ns/svc-cluster-1", "vApp-ns/svc-cluster-1",
          [(⟨sdk.EntityType.APPLICATION, "App-ns/p1"⟩,
            [⟨sdk.CommodityType.TRANSACTION, "ns/p1", ⟨0⟩⟩])]⟩] :=
  (ParseService_spec sampleProbeEnv [⟨"ns", "svc"⟩, ⟨"ns", "idle"⟩]
    [⟨"ns", "svc", [⟨[⟨some ⟨"ns", "p1"⟩⟩]⟩]⟩, ⟨"ns", "idle", [⟨[⟨none⟩]⟩]⟩]).2.2.2.2.2
    (by decide) (by decide)

/-- Counterexample to C11 as stated: the service `b/c` of namespace `a` and the endpoints
objects `b/c` of namespace `a`, which has an address with a `TargetRef`, followed by `c` of
namespace `a/b`, which has none.  The last endpoints object with the namespace and the name of
the service is the first one, so the claim calls for one DTO; both objects are stored under
`a/b/c`, the second replaces the first, and `ParseService` returns no DTO. -/
theorem ParseService_same_name_counterexample :
    lastEndpointsOf collidingEndpoints ⟨"a", "b/c"⟩
        = some ⟨"a", "b/c", [⟨[⟨some ⟨"a", "p"⟩⟩]⟩]⟩
      ∧ backendPods ⟨"a", "b/c", [⟨[⟨some ⟨"a", "p"⟩⟩]⟩]⟩ = ["a/p"]
      ∧ ParseService sampleProbeEnv [⟨"a", "b/c"⟩] collidingEndpoints = ([], none)
      ∧ (ParseService sampleProbeEnv [⟨"a", "b/c"⟩] collidingEndpoints).1
          ≠ [(⟨"a", "b/c"⟩ : Service)].filterMap (fun s =>
              serviceDTO sampleProbeEnv s (lastEndpointsOf collidingEndpoints s)) := by
  refine ⟨by decide, by decide, by decide, by decide⟩

end Kubeturbo
